import Mathlib

/-!
# sensino: HTTP time client and acquisition/upload client

A shallow embedding of `src/HTTPTimeClient.hpp`, `src/common.h` and
`src/client.hpp`.

Conventions of the embedding.

* The target is the ESP8266 (ILP32): `unsigned long`, `unsigned int`, `uint`
  and `size_t` are 32-bit words, `long` is a signed 32-bit word. Words are
  natural numbers below `2^32`; every operation that can leave that range is
  written with an explicit `% 2^32`.
* What the program reads from its environment (the readings of `millis()`,
  the status and body of an HTTP response, the result of the user's
  measurement callback, the answer of the acquisition ticker) is an argument
  of the function that reads it.
* What the program does to its environment (HTTP requests issued, user hooks
  invoked) is appended to a chronological list of events.
-/

namespace sensino

/-- Number of values of a 32-bit word. -/
def WORD : Nat := 4294967296

/-- Conversion of a mathematical integer to `unsigned long` (reduction modulo `2^32`). -/
def toULong (x : Int) : Nat := (x % 4294967296).toNat

/-- Subtraction of two `unsigned long` values `a - b`, wrapping modulo `2^32`. -/
def subULong (a b : Nat) : Nat := (a + (WORD - b % WORD)) % WORD

/-- Addition of two `unsigned long` values, wrapping modulo `2^32`. -/
def addULong (a b : Nat) : Nat := (a + b) % WORD

/-! ## `HTTPTimeClient` (src/HTTPTimeClient.hpp) -/

/-- The data members of `class HTTPTimeClient` with their in-class initialisers.
`_endpoint` (the URL) is left out: no decision of the class depends on it. -/
structure HTTPTimeClient where
  /-- Member `long _timeOffset = 0` -/
  _timeOffset : Int := 0
  /-- Member `unsigned long _updateInterval = 3600000`, in ms -/
  _updateInterval : Nat := 3600000
  /-- Member `unsigned long _currentEpoc = 0`, in s -/
  _currentEpoc : Nat := 0
  /-- Member `unsigned long _lastUpdate = 0`, in ms -/
  _lastUpdate : Nat := 0
  /-- Member `unsigned int _repeats = 9` -/
  _repeats : Nat := 9
  deriving DecidableEq, Repr

/-- What one pass through the body of the `for` loop of `forceUpdate` reads
from the environment: `t1 = millis()` before the request, the status returned
by `http.GET()`, `s1 = atol(payload)` as stored in the `unsigned long s1`, and
`t2 = millis()` after the body was read. When `httpCode` is not 200 the code
returns before it reads `s1` and `t2`. -/
structure Trip where
  t1 : Nat
  httpCode : Int
  s1 : Nat
  t2 : Nat
  deriving DecidableEq, Repr

/-- Result of one call of `forceUpdate`: the returned `bool`, the object after
the call, and the number of GET requests the call issued. -/
structure UpdateResult where
  ok : Bool
  client : HTTPTimeClient
  requests : Nat
  deriving DecidableEq, Repr

/-- The `for (size_t n = 0; n < _repeats; n++)` loop of `forceUpdate`
(lines 63-86). `k` is the number of passes still to run, `n` the loop counter,
`tmp = (tmpCurrentEpoc, tmpLastUpdate)`. Returns `none` together with the
number of requests issued when a request fails (`return false` at line 76),
otherwise the final temporaries. `minRoundTrip` is the local declared at
line 58; the loop only reads it. -/
def forceUpdateLoop (minRoundTrip : Nat) (trips : Nat → Trip) :
    Nat → Nat → Nat × Nat → Option (Nat × Nat) × Nat
  | 0, n, tmp => (some tmp, n)
  | k + 1, n, tmp =>
    let tr := trips n
    if tr.httpCode ≠ 200 then (none, n + 1)
    else
      let tmp1 :=
        if subULong tr.t2 tr.t1 < minRoundTrip then
          (tr.s1, addULong tr.t1 tr.t2 / 2)
        else tmp
      forceUpdateLoop minRoundTrip trips k (n + 1) tmp1

/-- Embeds `bool HTTPTimeClient::forceUpdate()` (lines 52-92). `trips n` is what the
`n`-th pass of the loop reads. -/
def HTTPTimeClient.forceUpdate (c : HTTPTimeClient) (trips : Nat → Trip) : UpdateResult :=
  let minRoundTrip := 4294967295
  match forceUpdateLoop minRoundTrip trips c._repeats 0 (0, 0) with
  | (none, reqs) => { ok := false, client := c, requests := reqs }
  | (some (tmpCurrentEpoc, tmpLastUpdate), reqs) =>
    { ok := true
      client := { c with _lastUpdate := tmpLastUpdate, _currentEpoc := tmpCurrentEpoc }
      requests := reqs }

/-- Embeds `bool HTTPTimeClient::update()` (lines 94-101); `now` is the reading of
`millis()`. -/
def HTTPTimeClient.update (c : HTTPTimeClient) (now : Nat) (trips : Nat → Trip) : UpdateResult :=
  if subULong now c._lastUpdate ≥ c._updateInterval ∨ c._lastUpdate = 0 then
    c.forceUpdate trips
  else { ok := true, client := c, requests := 0 }

/-- Embeds `unsigned long HTTPTimeClient::millisToEpoch(unsigned long value) const`
(lines 143-147). The `long` offset is converted to `unsigned long` by the
usual arithmetic conversions and the sum wraps modulo `2^32`. -/
def HTTPTimeClient.millisToEpoch (c : HTTPTimeClient) (value : Nat) : Nat :=
  toULong (c._timeOffset + (c._currentEpoc : Int) + ((subULong value c._lastUpdate / 1000 : Nat) : Int))

/-- Embeds `unsigned long HTTPTimeClient::getEpochTime() const` (lines 103-107);
`now` is the reading of `millis()`. -/
def HTTPTimeClient.getEpochTime (c : HTTPTimeClient) (now : Nat) : Nat :=
  toULong (c._timeOffset + (c._currentEpoc : Int) + ((subULong now c._lastUpdate / 1000 : Nat) : Int))

/-- Embeds `unsigned long HTTPTimeClient::getCurrentEpoch() const` (line 149). -/
def HTTPTimeClient.getCurrentEpoch (c : HTTPTimeClient) : Nat := c._currentEpoc

/-- The nine trips of the scenario of the specification, fast ones first:
50 ms round trips reporting epoch 1000 on passes 0, 1, 2 and 300 ms round
trips reporting 1005 on passes 3 to 8. Pass `n` starts at `1000 * n + 100`. -/
def scenarioTrips (n : Nat) : Trip :=
  if n < 3 then { t1 := 1000 * n + 100, httpCode := 200, s1 := 1000, t2 := 1000 * n + 150 }
  else { t1 := 1000 * n + 100, httpCode := 200, s1 := 1005, t2 := 1000 * n + 400 }

/-! ## `common.h` -/

/-- Embeds `enum class MEASURE_STATE` (common.h, lines 9-15). -/
inductive MEASURE_STATE where
  | IDLE
  | SUCCESS
  | ERROR
  | STORE
  | BUFFER_FULL
  deriving DecidableEq, Repr

/-- Embeds `enum class SEND_STATE` (common.h, lines 16-20). -/
inductive SEND_STATE where
  | IDLE
  | SUCCESS
  | ERROR
  deriving DecidableEq, Repr

/-- Embeds `template <typename UR> struct Record` (common.h, lines 27-31). -/
structure Record (UR : Type) where
  uptime : Nat
  timestamp : Nat
  userRecord : UR
  deriving DecidableEq, Repr

/-! ## Library types used by `Client` -/

/-- Modelled from the spec: the record store `CircularBuffer<Record<UR>, BS>`
(header `CircularBuffer.h` of a third-party library, not part of the sources).
"A capacity-bounded ordered sequence (FIFO)"; the oldest element is first in
`data`. -/
structure CircularBuffer (α : Type) (S : Nat) where
  data : List α := []
  deriving DecidableEq, Repr

namespace CircularBuffer

variable {α : Type} {S : Nat}

/-- Modelled from the spec: `isEmpty()`. -/
def isEmpty (b : CircularBuffer α S) : Bool := b.data.isEmpty

/-- Modelled from the spec: `isFull()`: the store holds `S` elements. -/
def isFull (b : CircularBuffer α S) : Bool := b.data.length == S

/-- Modelled from the spec: `first()`: the oldest element ("peek_oldest"). -/
def first (b : CircularBuffer α S) : Option α := b.data.head?

/-- Modelled from the spec: `shift()`: removes the oldest element ("pop_oldest"). -/
def shift (b : CircularBuffer α S) : CircularBuffer α S := { data := b.data.tail }

/-- Modelled from the spec: `push(value)`: appends as the newest element; "push on a full store is
rejected" and returns `false`. -/
def push (b : CircularBuffer α S) (x : α) : Bool × CircularBuffer α S :=
  if b.isFull then (false, b) else (true, { data := b.data ++ [x] })

end CircularBuffer

/-- Modelled from the spec: the acquisition ticker
`esp8266::polledTimeout::periodicMs` (core library of the board, not part of
the sources). Its state here is the period ("acquisition_period: mutable
cadence (ms)"); whether the ticker is due when `loop` asks it is an input of
the tick. -/
structure periodicMs where
  timeout : Nat
  deriving DecidableEq, Repr

/-- Modelled from the spec: `reset(newTimeout)`: a new period. -/
def periodicMs.reset (_t : periodicMs) (newTimeout : Nat) : periodicMs := { timeout := newTimeout }

/-- Modelled from the spec: `getTimeout()`. -/
def periodicMs.getTimeout (t : periodicMs) : Nat := t.timeout

/-! ## The environment of `Client` -/

/-- What `_send` reads from one HTTP response: the status returned by
`http.POST`, and of the deserialised body the three keys the code asks for.
`acqPeriod = some p` when `containsKey("acqPeriod")`, with `p` the value
`as<unsigned long>()`; `devInfoCheck = true` when `containsKey("devInfoCheck")`;
`userServerPayload = some v` when `containsKey("userServerPayload")`. A body
that does not parse has none of the keys. -/
structure Response (PL : Type) where
  httpCode : Int
  acqPeriod : Option Nat := none
  devInfoCheck : Bool := false
  userServerPayload : Option PL := none
  deriving DecidableEq, Repr

/-- The JSON body of a request: the one built by `sendRecord` (lines 232-249)
or the one built by `sendDeviceInfo` (lines 258-272; `userDeviceInfo` tells
whether the nested object filled by `_fillDeviceInfo` is present). -/
inductive Body (UR : Type) where
  | record (r : Record UR) (ntpEpoch : Nat) (bootID : Int)
  | deviceInfo (userDeviceInfo : Bool)
  deriving DecidableEq, Repr

/-- What the client does to its environment. `post idx method acqPeriod
userConfig body` is the `idx`-th POST request of the run, with the values of
the headers `SNO-METHOD`, `SNO-ACQ-PERIOD` and `SNO-USER-*`. The other events
are invocations of the user's callbacks. -/
inductive Event (UR UC PL : Type) where
  | beforeMeasure
  | onMeasure
  | afterMeasure
  | fillDeviceInfo
  | onUserServerPayload (p : PL)
  | post (idx : Nat) (method : Int) (acqPeriod : Nat) (userConfig : UC) (body : Body UR)
  deriving DecidableEq, Repr

/-- Ways in which a call does not return: the nesting of `_send` calls went
deeper than the model was given fuel for, or an empty `std::function` was
invoked. -/
inductive Fault where
  | outOfFuel
  | badFunctionCall
  deriving DecidableEq, Repr

/-! ## `Client` (src/client.hpp) -/

/-- The data members of `class Client<UR, UC, BS>` (lines 97-136). The
callbacks without a result (`_beforeMeasure`, `_afterMeasure`,
`_fillDeviceInfo`) and `_onMeasure` are represented by whether they are set
(`!= nullptr`); `_onUserServerPayload` by its effect on `userConfig`. The
callbacks are taken not to touch the other members of the client.
`_endpoint` and `_apiKey` are constant strings and left out. -/
structure Client (UR UC PL : Type) (BS : Nat) where
  _bootID : Int := 0
  _measure_state : MEASURE_STATE := MEASURE_STATE.IDLE
  _send_state : SEND_STATE := SEND_STATE.IDLE
  _lastRecord : Record UR
  _serialNumber : Nat := 0
  _requiredWarmUp : Nat := 0
  _isReady : Bool := false
  _buffer : CircularBuffer (Record UR) BS := {}
  _acqTicker : periodicMs
  _beforeMeasure : Bool := false
  _onMeasure : Bool := false
  _afterMeasure : Bool := false
  _onUserServerPayload : Option (PL → UC → UC) := none
  _fillDeviceInfo : Bool := false
  userConfig : UC

/-- The program state: the `Client` object, the global `timeClient`
(client.hpp, line 34), and the record of what was done to the environment:
the number of POST requests and of GET requests issued so far and the events
in chronological order. -/
structure World (UR UC PL : Type) (BS : Nat) where
  client : Client UR UC PL BS
  timeClient : HTTPTimeClient := {}
  posts : Nat := 0
  gets : Nat := 0
  trace : List (Event UR UC PL) := []

/-- What one call of `loop` reads from its environment. -/
structure TickInput (UR PL : Type) where
  /-- Reading of `millis()` at line 331 -/
  uptime : Nat
  /-- Reading of `millis()` inside `timeClient.getEpochTime()` at line 332 -/
  epochNow : Nat
  /-- The pair returned by `_onMeasure()` -/
  meas : UR × Bool
  /-- The value of `(bool) _acqTicker` at line 188, should the code ask for it -/
  due : Bool
  /-- The response to the `i`-th POST request of the run is `srv i` -/
  srv : Nat → Response PL
  /-- Reading of `millis()` inside `timeClient.update()` at line 210 -/
  updateNow : Nat
  /-- What the passes of `forceUpdate` read, should `update` call it -/
  trips : Nat → Trip

section ClientOps

variable {UR UC PL : Type} {BS : Nat}

/-- Appends an event to the trace. -/
def World.emit (w : World UR UC PL BS) (e : Event UR UC PL) : World UR UC PL BS :=
  { w with trace := w.trace ++ [e] }

/-- The serialisation block of `sendDeviceInfo` (lines 258-272): calls
`_fillDeviceInfo` when it is set and yields the body. -/
def Client.deviceInfoBody (w : World UR UC PL BS) : Body UR × World UR UC PL BS :=
  if w.client._fillDeviceInfo then (Body.deviceInfo true, w.emit Event.fillDeviceInfo)
  else (Body.deviceInfo false, w)

/-- Lines 318-320 of `_send`: forwards `userServerPayload` to
`_onUserServerPayload`, which is invoked without a null check. -/
def Client.forwardPayload (resp : Response PL) (w : World UR UC PL BS) :
    Except Fault (World UR UC PL BS) :=
  match resp.userServerPayload with
  | none => pure w
  | some p =>
    match w.client._onUserServerPayload with
    | none => throw Fault.badFunctionCall
    | some f =>
      pure ({ w with client := { w.client with userConfig := f p w.client.userConfig } }.emit
        (Event.onUserServerPayload p))

/-- Line 312-314 of `_send`: `acqPeriod` resets the ticker. -/
def Client.applyAcqPeriod (resp : Response PL) (w : World UR UC PL BS) : World UR UC PL BS :=
  match resp.acqPeriod with
  | none => w
  | some p => { w with client := { w.client with _acqTicker := w.client._acqTicker.reset p } }

/-- Embeds `bool Client::_send(const char *jsonString, const int method)`
(lines 277-323). `srv i` is the response to the `i`-th POST of the run. The
call `this->sendDeviceInfo()` of line 316 is `deviceInfoBody` followed by
`_send` with method 1, with one unit of fuel less. -/
def Client._send (srv : Nat → Response PL) :
    Nat → Body UR → Int → World UR UC PL BS → Except Fault (Bool × World UR UC PL BS)
  | 0, _, _, _ => throw Fault.outOfFuel
  | fuel + 1, body, method, w =>
    let resp := srv w.posts
    let w1 := { w with posts := w.posts + 1 }.emit
      (Event.post w.posts method w.client._acqTicker.getTimeout w.client.userConfig body)
    if resp.httpCode ≠ 200 then pure (false, w1)
    else do
      let w2 := Client.applyAcqPeriod resp w1
      let w3 ←
        if resp.devInfoCheck then do
          let (b, wd) := Client.deviceInfoBody w2
          let r ← Client._send srv fuel b 1 wd
          pure r.2
        else pure w2
      let w4 ← Client.forwardPayload resp w3
      pure (true, w4)

/-- Embeds `bool Client::sendDeviceInfo()` (lines 256-275). -/
def Client.sendDeviceInfo (srv : Nat → Response PL) (fuel : Nat) (w : World UR UC PL BS) :
    Except Fault (Bool × World UR UC PL BS) :=
  let (b, wd) := Client.deviceInfoBody w
  Client._send srv fuel b 1 wd

/-- Embeds `bool Client::sendRecord(Record<UR> record)` (lines 229-252). -/
def Client.sendRecord (srv : Nat → Response PL) (fuel : Nat) (record : Record UR)
    (w : World UR UC PL BS) : Except Fault (Bool × World UR UC PL BS) :=
  Client._send srv fuel (Body.record record w.timeClient.getCurrentEpoch w.client._bootID) 0 w

/-- The `while` loop of `sendPending` (lines 216-223) with the local `success`
and the parameter `n`. -/
def Client.sendPendingLoop (srv : Nat → Response PL) (fuel : Nat) :
    Nat → Bool → World UR UC PL BS → Except Fault (Bool × World UR UC PL BS)
  | 0, success, w => pure (success, w)
  | n + 1, success, w =>
    match w.client._buffer.first with
    | none => pure (success, w)
    | some r => do
      let (sent, w1) ← Client.sendRecord srv fuel r w
      if sent then
        Client.sendPendingLoop srv fuel n success
          { w1 with client := { w1.client with _buffer := w1.client._buffer.shift } }
      else
        Client.sendPendingLoop srv fuel n false w1

/-- Embeds `bool Client::sendPending(uint n)` (lines 214-225). -/
def Client.sendPending (srv : Nat → Response PL) (fuel : Nat) (n : Nat)
    (w : World UR UC PL BS) : Except Fault (Bool × World UR UC PL BS) :=
  Client.sendPendingLoop srv fuel n true w

/-- Embeds `std::pair<Record<UR>, bool> Client::measure() const` (lines 326-342).
`_onMeasure` is invoked without a null check. -/
def Client.measure [Inhabited UR] (inp : TickInput UR PL) (w : World UR UC PL BS) :
    Except Fault ((Record UR × Bool) × World UR UC PL BS) :=
  let w1 := if w.client._beforeMeasure then w.emit Event.beforeMeasure else w
  let rec0 : Record UR :=
    { uptime := inp.uptime
      timestamp := w1.timeClient.getEpochTime inp.epochNow
      userRecord := default }
  if w1.client._onMeasure = false then throw Fault.badFunctionCall
  else
    let w2 := w1.emit Event.onMeasure
    if inp.meas.2 = false then pure ((rec0, false), w2)
    else
      let rec1 := { rec0 with userRecord := inp.meas.1 }
      let w3 := if w2.client._afterMeasure then w2.emit Event.afterMeasure else w2
      pure ((rec1, true), w3)

/-- Lines 182-198 of `loop`: the measurement step. -/
def Client.measureStep [Inhabited UR] (inp : TickInput UR PL) (w : World UR UC PL BS) :
    Except Fault (World UR UC PL BS) := do
  let w0 := { w with client := { w.client with _measure_state := MEASURE_STATE.IDLE } }
  let (meas, w1) ← Client.measure inp w0
  if meas.2 then
    let w2 := { w1 with client := { w1.client with
      _lastRecord := meas.1, _measure_state := MEASURE_STATE.SUCCESS } }
    if inp.due then
      if w2.client._buffer.isFull then
        pure { w2 with client := { w2.client with _measure_state := MEASURE_STATE.BUFFER_FULL } }
      else
        pure { w2 with client := { w2.client with
          _measure_state := MEASURE_STATE.STORE
          _buffer := (w2.client._buffer.push w2.client._lastRecord).2 } }
    else pure w2
  else
    pure { w1 with client := { w1.client with _measure_state := MEASURE_STATE.ERROR } }

/-- Lines 200-208 of `loop`: the drain step. -/
def Client.sendStep (inp : TickInput UR PL) (fuel : Nat) (w : World UR UC PL BS) :
    Except Fault (World UR UC PL BS) :=
  if w.client._buffer.isEmpty then
    pure { w with client := { w.client with _send_state := SEND_STATE.IDLE } }
  else do
    let (sent, w1) ← Client.sendPending inp.srv fuel 1 w
    if sent then
      pure { w1 with client := { w1.client with _send_state := SEND_STATE.SUCCESS } }
    else
      pure { w1 with client := { w1.client with _send_state := SEND_STATE.ERROR } }

/-- Line 210 of `loop`: `timeClient.update()`. -/
def Client.syncStep (inp : TickInput UR PL) (w : World UR UC PL BS) : World UR UC PL BS :=
  let u := w.timeClient.update inp.updateNow inp.trips
  { w with timeClient := u.client, gets := w.gets + u.requests }

/-- Embeds `void Client::loop()` (lines 180-211). -/
def Client.loop [Inhabited UR] (inp : TickInput UR PL) (fuel : Nat) (w : World UR UC PL BS) :
    Except Fault (World UR UC PL BS) := do
  let w1 ← Client.measureStep inp w
  let w2 ← Client.sendStep inp fuel w1
  pure (Client.syncStep inp w2)

/-! ## Reading the trace -/

/-- Invocations of the three measurement callbacks. -/
def Event.isMeasureHook : Event UR UC PL → Bool
  | Event.beforeMeasure => true
  | Event.onMeasure => true
  | Event.afterMeasure => true
  | _ => false

/-- POST requests with method code 1 (device info). -/
def Event.isDeviceInfoPost : Event UR UC PL → Bool
  | Event.post _ method _ _ _ => method == 1
  | _ => false

/-- The record and the request index of a POST request that carries a record. -/
def Event.upload? : Event UR UC PL → Option (Nat × Record UR)
  | Event.post idx _ _ _ (Body.record r _ _) => some (idx, r)
  | _ => none

/-- The record uploads among the events, in chronological order. -/
def uploads (evs : List (Event UR UC PL)) : List (Nat × Record UR) :=
  evs.filterMap Event.upload?

/-- The record uploads among the events, each with whether the transport
answered it with status 200. -/
def attempts (srv : Nat → Response PL) (evs : List (Event UR UC PL)) : List (Record UR × Bool) :=
  (uploads evs).map fun x => (x.2, decide ((srv x.1).httpCode = 200))

/-- The number of device-info requests among the events. -/
def deviceInfoRequests (evs : List (Event UR UC PL)) : Nat :=
  evs.countP Event.isDeviceInfoPost

/-- The relation `Drains buf att buf1` holds when the upload attempts `att`,
made one after the other on a store holding `buf`, were each made on the
record that was the oldest at that moment, every successful attempt removed
that record, every failed attempt removed nothing, and `buf1` is what the
store holds at the end. -/
def Drains : List (Record UR) → List (Record UR × Bool) → List (Record UR) → Prop
  | buf, [], buf1 => buf1 = buf
  | buf, a :: att, buf1 =>
    buf.head? = some a.1 ∧ Drains (if a.2 then buf.tail else buf) att buf1

/-- The world `w1` arises from `w` by requests and callbacks of `_send`:
of the client only the ticker and `userConfig` may differ, the time client
and the number of GET requests are the same, and the trace grew by `evs`. -/
structure SendFrame (w w1 : World UR UC PL BS) (evs : List (Event UR UC PL)) : Prop where
  client : w1.client =
    { w.client with _acqTicker := w1.client._acqTicker, userConfig := w1.client.userConfig }
  timeClient : w1.timeClient = w.timeClient
  gets : w1.gets = w.gets
  trace : w1.trace = w.trace ++ evs

/-- Events that a call of `_send` causes after its own request: callbacks of
device-info uploads and of the payload handler, and device-info requests. -/
def Event.isNested : Event UR UC PL → Prop
  | Event.fillDeviceInfo => True
  | Event.onUserServerPayload _ => True
  | Event.post _ method _ _ (Body.deviceInfo _) => method = 1
  | _ => False


/-- The request that `_send` issues (lines 279-299), with the headers as they
are when it is sent. -/
def Client.request (body : Body UR) (method : Int) (w : World UR UC PL BS) : Event UR UC PL :=
  Event.post w.posts method w.client._acqTicker.getTimeout w.client.userConfig body


/-- The world `w1` arises from `w` by a run of the loop of `sendPending`: as
`SendFrame`, and the store may have lost records. -/
structure DrainFrame (w w1 : World UR UC PL BS) (evs : List (Event UR UC PL)) : Prop where
  client : w1.client =
    { w.client with _acqTicker := w1.client._acqTicker, userConfig := w1.client.userConfig
                    _buffer := w1.client._buffer }
  timeClient : w1.timeClient = w.timeClient
  gets : w1.gets = w.gets
  trace : w1.trace = w.trace ++ evs


/-- The record that `measure` builds on a successful measurement. -/
def Client.measured (inp : TickInput UR PL) (w : World UR UC PL BS) : Record UR :=
  { uptime := inp.uptime
    timestamp := w.timeClient.getEpochTime inp.epochNow
    userRecord := inp.meas.1 }


/-- The world after the upload of the oldest record `r1` was answered with
status 200 and a body whose only key is `acqPeriod = p`: one more request,
the ticker reset to `p`, the store reduced to `rest`. -/
def Client.afterAcqPeriod (w : World UR UC PL BS) (r1 : Record UR) (rest : List (Record UR))
    (p : Nat) : World UR UC PL BS :=
  { w with
    posts := w.posts + 1
    trace := w.trace ++
      [Client.request (Body.record r1 w.timeClient.getCurrentEpoch w.client._bootID) 0 w]
    client := { w.client with _acqTicker := w.client._acqTicker.reset p
                              _buffer := { data := rest } } }

/-- The responses of `srv` let every call of `_send` return within `fuel`
nested calls: from every request index on, fewer than `fuel` consecutive
responses are status 200 with `devInfoCheck`. -/
def Answers (srv : Nat → Response PL) (fuel : Nat) : Prop :=
  ∀ i, ∃ k, k < fuel ∧
    (∀ j, j < k → (srv (i + j)).httpCode = 200 ∧ (srv (i + j)).devInfoCheck = true) ∧
    ¬ ((srv (i + k)).httpCode = 200 ∧ (srv (i + k)).devInfoCheck = true)

/-- No response makes `_send` invoke an empty payload handler: a handler is
set, or no response has the key `userServerPayload`. -/
def PayloadSafe (srv : Nat → Response PL) (w : World UR UC PL BS) : Prop :=
  w.client._onUserServerPayload.isSome = true ∨ ∀ i, (srv i).userServerPayload = none

end ClientOps

/-! ## Concrete data for the scenarios -/

/-- Records `R1`, `R2`, `R3`, `R4` of the scenarios: captured one second apart. -/
def R (k : Nat) : Record Nat := { uptime := 1000 * k, timestamp := 1000 + k, userRecord := 10 * k }

/-- A client with capacity 3 whose store holds `buf`, with a measurement
callback set and an acquisition period of 1000 ms. -/
def demoWorld (buf : List (Record Nat)) : World Nat Nat Nat 3 :=
  { client :=
      { _lastRecord := R 0
        _buffer := { data := buf }
        _acqTicker := { timeout := 1000 }
        _onMeasure := true
        _afterMeasure := true
        userConfig := 0 } }

/-- A transport that answers the requests 0 and 2 with status 200 and every
other request with status 500. -/
def flakySrv (i : Nat) : Response Nat :=
  if i = 0 ∨ i = 2 then { httpCode := 200 } else { httpCode := 500 }

/-- A transport that answers the request 0 with status 500 and every later
request with status 200. -/
def failOnceSrv (i : Nat) : Response Nat :=
  if i = 0 then { httpCode := 500 } else { httpCode := 200 }

/-- A tick of the scenarios: uptime 5000 ms, a successful measurement of the
value 7, the ticker due, every upload answered with status 500. -/
def fullTick : TickInput Nat Nat :=
  { uptime := 5000, epochNow := 5000, meas := (7, true), due := true,
    srv := fun _ => { httpCode := 500 }, updateNow := 5000, trips := scenarioTrips }

/-- A tick in which the measurement fails. -/
def failedTick : TickInput Nat Nat :=
  { uptime := 5000, epochNow := 5000, meas := (0, false), due := true,
    srv := fun _ => { httpCode := 200 }, updateNow := 5000, trips := scenarioTrips }

/-- A server that asks for the device info on the first response only. -/
def askOnceSrv (i : Nat) : Response Nat :=
  if i = 0 then { httpCode := 200, devInfoCheck := true } else { httpCode := 200 }

/-- A server that asks for the device info on the first two responses. -/
def askTwiceSrv (i : Nat) : Response Nat :=
  if i < 2 then { httpCode := 200, devInfoCheck := true } else { httpCode := 200 }

/-- Nine trips of 100 ms taken after 2^31 ms (about 24.9 days) of uptime, all
answered with status 200; pass `n` starts at `2^31 + 1000 * n` and reports
epoch `1000 + n`. -/
def lateTrips (n : Nat) : Trip :=
  { t1 := 2147483648 + 1000 * n, httpCode := 200, s1 := 1000 + n, t2 := 2147483748 + 1000 * n }

/-- A tick with a successful measurement of the value 7 while the ticker is
not due; every upload is answered with status 500. -/
def notDueTick : TickInput Nat Nat :=
  { uptime := 5000, epochNow := 5000, meas := (7, true), due := false,
    srv := fun _ => { httpCode := 500 }, updateNow := 5000, trips := scenarioTrips }

/-- The client of the scenarios with the measure state `st` left by the
previous tick. -/
def demoWorldIn (st : MEASURE_STATE) (buf : List (Record Nat)) : World Nat Nat Nat 3 :=
  { demoWorld buf with client := { (demoWorld buf).client with _measure_state := st } }

/-- A server that asks for the device info on the first response only, which
also carries a `userServerPayload`. -/
def askOncePayloadSrv (i : Nat) : Response Nat :=
  if i = 0 then { httpCode := 200, devInfoCheck := true, userServerPayload := some 5 }
  else { httpCode := 200 }

/-! ## Word arithmetic -/

theorem subULong_of_le {a b : Nat} (hb : b ≤ a) (ha : a < WORD) : subULong a b = a - b := by
  unfold subULong WORD at *
  omega

theorem subULong_lt_word (a b : Nat) : subULong a b < WORD := by
  unfold subULong WORD
  omega

/-! ## The loop of `forceUpdate` -/

/-- A failing request ends the loop at once: when the passes `n, ..., j - 1`
succeed and pass `j` fails, the loop reports failure after `j + 1` requests. -/
theorem forceUpdateLoop_fail (m : Nat) (trips : Nat → Trip) (j : Nat)
    (hfail : (trips j).httpCode ≠ 200) :
    ∀ (k n : Nat) (tmp : Nat × Nat), n ≤ j → j < n + k →
      (∀ i, n ≤ i → i < j → (trips i).httpCode = 200) →
      forceUpdateLoop m trips k n tmp = (none, j + 1) := by
  intro k
  induction k with
  | zero => intro n tmp h1 h2; omega
  | succ k ih =>
    intro n tmp h1 h2 hok
    rcases Nat.eq_or_lt_of_le h1 with h | h
    · subst h
      simp [forceUpdateLoop, hfail]
    · have hn : (trips n).httpCode = 200 := hok n (Nat.le_refl n) h
      simp only [forceUpdateLoop, hn, ne_eq, not_true_eq_false, if_false]
      exact ih (n + 1) _ h (by omega) (fun i hi hij => hok i (by omega) hij)

/-- When every pass succeeds the loop issues one request per pass and, when
the last pass has a round trip below `m`, ends with the reading of the last
pass. -/
theorem forceUpdateLoop_last (m : Nat) (trips : Nat → Trip) :
    ∀ (k n : Nat) (tmp : Nat × Nat),
      (∀ i, n ≤ i → i ≤ n + k → (trips i).httpCode = 200) →
      subULong (trips (n + k)).t2 (trips (n + k)).t1 < m →
      forceUpdateLoop m trips (k + 1) n tmp =
        (some ((trips (n + k)).s1, addULong (trips (n + k)).t1 (trips (n + k)).t2 / 2), n + k + 1) := by
  intro k
  induction k with
  | zero =>
    intro n tmp hok hlt
    have hn : (trips n).httpCode = 200 := hok n (Nat.le_refl n) (by omega)
    have hlt1 : subULong (trips n).t2 (trips n).t1 < m := by simpa using hlt
    simp [forceUpdateLoop, hn, hlt1]
  | succ k ih =>
    intro n tmp hok hlt
    have hn : (trips n).httpCode = 200 := hok n (Nat.le_refl n) (by omega)
    have e : n + (k + 1) = n + 1 + k := by omega
    rw [forceUpdateLoop]
    simp only [hn, ne_eq, not_true_eq_false, if_false]
    rw [e] at hlt ⊢
    exact ih (n + 1) _ (fun i hi hik => hok i (by omega) (by omega)) hlt

/-- With all requests answered by status 200, `forceUpdate` keeps the reading
of the last pass whose round trip differs from `2^32 - 1`; here: when that is
the final pass, whatever the round trips of the earlier passes were. -/
theorem forceUpdate_adopts_last (c : HTTPTimeClient) (trips : Nat → Trip) (r : Nat)
    (hr : c._repeats = r + 1) (hok : ∀ i, i ≤ r → (trips i).httpCode = 200)
    (hrt : subULong (trips r).t2 (trips r).t1 ≠ 4294967295) :
    (c.forceUpdate trips).ok = true ∧
    (c.forceUpdate trips).requests = r + 1 ∧
    (c.forceUpdate trips).client._currentEpoc = (trips r).s1 ∧
    (c.forceUpdate trips).client._lastUpdate = addULong (trips r).t1 (trips r).t2 / 2 := by
  have hlt : subULong (trips (0 + r)).t2 (trips (0 + r)).t1 < 4294967295 := by
    have := subULong_lt_word (trips r).t2 (trips r).t1
    unfold WORD at this
    simp only [Nat.zero_add]
    omega
  have h := forceUpdateLoop_last 4294967295 trips r 0 (0, 0)
    (fun i _ hi => hok i (by omega)) hlt
  simp only [Nat.zero_add] at h
  simp only [HTTPTimeClient.forceUpdate, hr, h, and_self]

/-- Without wrap-around the expression `(t1 + t2) / 2` is the midpoint of the
interval from `t1` to `t2`. -/
theorem addULong_half_of_no_wrap {t1 t2 : Nat} (h12 : t1 ≤ t2) (hsum : t1 + t2 < WORD) :
    addULong t1 t2 / 2 = t1 + (t2 - t1) / 2 ∧
    t1 ≤ addULong t1 t2 / 2 ∧ addULong t1 t2 / 2 ≤ t2 := by
  unfold addULong WORD at *
  rw [Nat.mod_eq_of_lt hsum]
  omega

/-- When the sum of two 32-bit readings `t1 ≤ t2` reaches `2^32`, the
expression `(t1 + t2) / 2` wraps and lies before `t1`, half a period away from
the midpoint. -/
theorem addULong_half_of_wrap {t1 t2 : Nat} (h12 : t1 ≤ t2) (h2 : t2 < WORD)
    (hsum : WORD ≤ t1 + t2) :
    addULong t1 t2 / 2 < t1 ∧ addULong t1 t2 / 2 + 2147483648 = t1 + (t2 - t1) / 2 := by
  unfold addULong WORD at *
  omega

/-- With all requests answered by status 200 and a final trip `t1 ≤ t2` of
32-bit readings whose round trip is not `2^32 - 1`, `_currentEpoc` and
`_lastUpdate` both come from the final trip, and `_lastUpdate` is the
midpoint of that trip exactly when `t1 + t2` does not reach `2^32`. -/
theorem forceUpdate_lastUpdate (c : HTTPTimeClient) (trips : Nat → Trip) (r : Nat)
    (hr : c._repeats = r + 1) (hok : ∀ i, i ≤ r → (trips i).httpCode = 200)
    (h12 : (trips r).t1 ≤ (trips r).t2) (h2 : (trips r).t2 < WORD)
    (hrt : subULong (trips r).t2 (trips r).t1 ≠ 4294967295) :
    (c.forceUpdate trips).ok = true ∧
    (c.forceUpdate trips).client._currentEpoc = (trips r).s1 ∧
    ((trips r).t1 + (trips r).t2 < WORD →
      (c.forceUpdate trips).client._lastUpdate = (trips r).t1 + ((trips r).t2 - (trips r).t1) / 2) ∧
    (WORD ≤ (trips r).t1 + (trips r).t2 →
      (c.forceUpdate trips).client._lastUpdate < (trips r).t1) := by
  obtain ⟨h1, _, h3, h4⟩ := forceUpdate_adopts_last c trips r hr hok hrt
  refine ⟨h1, h3, ?_, ?_⟩
  · intro hs
    rw [h4]
    exact (addULong_half_of_no_wrap h12 hs).1
  · intro hs
    rw [h4]
    exact (addULong_half_of_wrap h12 h2 hs).1

/-! ## Claims on `HTTPTimeClient` -/

/-- C1 (evaluation of the code at the failing input). On the scenario of the
specification with the three 50 ms trips reporting epoch 1000 first and the
six 300 ms trips reporting 1005 after them, all answered with status 200,
`forceUpdate` returns true after nine requests and leaves `_currentEpoc = 1005`
and `_lastUpdate = 8250`, the midpoint of the last (300 ms) trip, although the
first trip with the minimal round trip is trip 0, with epoch 1000 and midpoint
125. -/
theorem C1_forceUpdate_scenario_keeps_last_trip :
    (({} : HTTPTimeClient).forceUpdate scenarioTrips) =
        { ok := true, client := { _currentEpoc := 1005, _lastUpdate := 8250 }, requests := 9 } ∧
      (∀ i, i < 9 → subULong (scenarioTrips 0).t2 (scenarioTrips 0).t1
          ≤ subULong (scenarioTrips i).t2 (scenarioTrips i).t1) ∧
      (scenarioTrips 0).s1 = 1000 ∧
      addULong (scenarioTrips 0).t1 (scenarioTrips 0).t2 / 2 = 125 := by
  refine ⟨by decide, ?_, by decide, by decide⟩
  intro i hi
  interval_cases i <;> decide

/-- C2. When some request among the `_repeats` passes is answered with a
status other than 200, `forceUpdate` returns false, leaves the object (so
`_currentEpoc`, `_lastUpdate` and the function `getEpochTime`) exactly as it
was, and the requests it issued are those up to and including the first
failing one. -/
theorem C2_forceUpdate_failure_is_all_or_nothing (c : HTTPTimeClient) (trips : Nat → Trip)
    (h : ∃ i, i < c._repeats ∧ (trips i).httpCode ≠ 200) :
    (c.forceUpdate trips).ok = false ∧
    (c.forceUpdate trips).client = c ∧
    (∀ now, (c.forceUpdate trips).client.getEpochTime now = c.getEpochTime now) ∧
    ∃ j, j < c._repeats ∧ (trips j).httpCode ≠ 200 ∧
      (∀ i, i < j → (trips i).httpCode = 200) ∧
      (c.forceUpdate trips).requests = j + 1 := by
  classical
  have hex : ∃ i, i < c._repeats ∧ (trips i).httpCode ≠ 200 := h
  let j := Nat.find hex
  have hj : j < c._repeats ∧ (trips j).httpCode ≠ 200 := Nat.find_spec hex
  have hmin : ∀ i, i < j → (trips i).httpCode = 200 := by
    intro i hi
    by_contra hne
    exact Nat.find_min hex hi ⟨by omega, hne⟩
  have hloop := forceUpdateLoop_fail 4294967295 trips j hj.2 c._repeats 0 (0, 0)
    (Nat.zero_le j) (by omega) (fun i _ hi => hmin i hi)
  have hres : c.forceUpdate trips = { ok := false, client := c, requests := j + 1 } := by
    simp only [HTTPTimeClient.forceUpdate, hloop]
  rw [hres]
  exact ⟨rfl, rfl, fun _ => rfl, j, hj.1, hj.2, hmin, rfl⟩

/-- Witness of C2: a client synchronised earlier, whose third request is
answered with status 503. -/
theorem C2_forceUpdate_failure_is_all_or_nothing_witness :
    (∃ i, i < ({ _currentEpoc := 1000, _lastUpdate := 125 } : HTTPTimeClient)._repeats ∧
        ((fun n => if n = 2 then ({ t1 := 0, httpCode := 503, s1 := 0, t2 := 0 } : Trip)
          else scenarioTrips n) i).httpCode ≠ 200) ∧
    (({ _currentEpoc := 1000, _lastUpdate := 125 } : HTTPTimeClient).forceUpdate
        (fun n => if n = 2 then ({ t1 := 0, httpCode := 503, s1 := 0, t2 := 0 } : Trip)
          else scenarioTrips n)).client
      = { _currentEpoc := 1000, _lastUpdate := 125 } :=
  ⟨⟨2, by decide, by decide⟩,
   (C2_forceUpdate_failure_is_all_or_nothing _ _ ⟨2, by decide, by decide⟩).2.1⟩

/-! ## Lemmas on `Client` -/

section ClientLemmas

variable {UR UC PL : Type} {BS : Nat}

@[simp] theorem World.emit_client (w : World UR UC PL BS) (e : Event UR UC PL) :
    (w.emit e).client = w.client := rfl

@[simp] theorem World.emit_timeClient (w : World UR UC PL BS) (e : Event UR UC PL) :
    (w.emit e).timeClient = w.timeClient := rfl

@[simp] theorem World.emit_posts (w : World UR UC PL BS) (e : Event UR UC PL) :
    (w.emit e).posts = w.posts := rfl

@[simp] theorem World.emit_gets (w : World UR UC PL BS) (e : Event UR UC PL) :
    (w.emit e).gets = w.gets := rfl

@[simp] theorem World.emit_trace (w : World UR UC PL BS) (e : Event UR UC PL) :
    (w.emit e).trace = w.trace ++ [e] := rfl

theorem SendFrame.refl (w : World UR UC PL BS) : SendFrame w w [] :=
  ⟨rfl, rfl, rfl, by simp⟩

theorem SendFrame.trans {w w1 w2 : World UR UC PL BS} {e1 e2 : List (Event UR UC PL)}
    (h1 : SendFrame w w1 e1) (h2 : SendFrame w1 w2 e2) : SendFrame w w2 (e1 ++ e2) := by
  refine ⟨?_, ?_, ?_, ?_⟩
  · rw [h2.client, h1.client]
  · rw [h2.timeClient, h1.timeClient]
  · rw [h2.gets, h1.gets]
  · rw [h2.trace, h1.trace, List.append_assoc]

theorem SendFrame.buffer {w w1 : World UR UC PL BS} {evs : List (Event UR UC PL)}
    (h : SendFrame w w1 evs) : w1.client._buffer = w.client._buffer := by
  rw [h.client]

theorem SendFrame.handler {w w1 : World UR UC PL BS} {evs : List (Event UR UC PL)}
    (h : SendFrame w w1 evs) :
    w1.client._onUserServerPayload = w.client._onUserServerPayload := by
  rw [h.client]

theorem Client.applyAcqPeriod_frame (resp : Response PL) (w : World UR UC PL BS) :
    SendFrame w (Client.applyAcqPeriod resp w) [] ∧ (Client.applyAcqPeriod resp w).posts = w.posts := by
  unfold Client.applyAcqPeriod
  cases resp.acqPeriod <;> exact ⟨⟨rfl, rfl, rfl, by simp⟩, rfl⟩

theorem Client.deviceInfoBody_frame (w : World UR UC PL BS) :
    ∃ evs, SendFrame w (Client.deviceInfoBody w).2 evs ∧ (Client.deviceInfoBody w).2.posts = w.posts ∧
      (∀ e ∈ evs, e.isNested) ∧ ∃ f, (Client.deviceInfoBody w).1 = Body.deviceInfo f := by
  unfold Client.deviceInfoBody
  cases h : w.client._fillDeviceInfo
  · exact ⟨[], by simpa using SendFrame.refl w, by simp, by simp, false, by simp⟩
  · refine ⟨[Event.fillDeviceInfo], ?_, by simp, by simp [Event.isNested], true, by simp⟩
    exact ⟨rfl, rfl, rfl, by simp⟩

theorem Client.forwardPayload_frame (resp : Response PL) (w w1 : World UR UC PL BS)
    (h : Client.forwardPayload resp w = Except.ok w1) :
    ∃ evs, SendFrame w w1 evs ∧ w1.posts = w.posts ∧ (∀ e ∈ evs, e.isNested) := by
  unfold Client.forwardPayload at h
  cases hp : resp.userServerPayload with
  | none =>
    simp [hp, pure, Except.pure] at h
    subst h
    exact ⟨[], SendFrame.refl w, rfl, by simp⟩
  | some p =>
    cases hf : w.client._onUserServerPayload with
    | none => simp [hp, hf, throw, throwThe, MonadExceptOf.throw] at h
    | some f =>
      simp [hp, hf, pure, Except.pure] at h
      subst h
      exact ⟨[Event.onUserServerPayload p], ⟨by simp [hf], rfl, rfl, by simp⟩, rfl, by simp [Event.isNested]⟩



theorem Except.bind_eq_ok {ε α β : Type} {x : Except ε α} {f : α → Except ε β} {b : β}
    (h : (x >>= f) = Except.ok b) : ∃ a, x = Except.ok a ∧ f a = Except.ok b := by
  cases x with
  | error e => simp [bind, Except.bind] at h
  | ok a => exact ⟨a, rfl, by simpa [bind, Except.bind] using h⟩

theorem Client._send_succ (srv : Nat → Response PL) (fuel : Nat) (body : Body UR) (method : Int)
    (w : World UR UC PL BS) :
    Client._send srv (fuel + 1) body method w =
      if (srv w.posts).httpCode ≠ 200 then
        pure (false, { w with posts := w.posts + 1 }.emit (Client.request body method w))
      else
        (if (srv w.posts).devInfoCheck then
          Client.sendDeviceInfo srv fuel
            (Client.applyAcqPeriod (srv w.posts)
              ({ w with posts := w.posts + 1 }.emit (Client.request body method w))) >>=
            fun r => pure r.2
         else pure (Client.applyAcqPeriod (srv w.posts)
              ({ w with posts := w.posts + 1 }.emit (Client.request body method w)))) >>=
        fun w3 => Client.forwardPayload (srv w.posts) w3 >>= fun w4 => pure (true, w4) := by
  rw [Client._send]
  simp only [Client.request, Client.sendDeviceInfo]
  split
  · rfl
  · split
    · rw [bind_assoc]
    · rfl



theorem Client.sendDeviceInfo_of_send (srv : Nat → Response PL) (fuel : Nat)
    (hsend : ∀ (body : Body UR) (method : Int) (w : World UR UC PL BS) (b : Bool)
      (w1 : World UR UC PL BS),
      Client._send srv fuel body method w = Except.ok (b, w1) →
      b = decide ((srv w.posts).httpCode = 200) ∧ w.posts < w1.posts ∧
      ∃ evs, SendFrame w w1 (Client.request body method w :: evs) ∧ ∀ e ∈ evs, e.isNested)
    (w : World UR UC PL BS) (b : Bool) (w1 : World UR UC PL BS)
    (h : Client.sendDeviceInfo srv fuel w = Except.ok (b, w1)) :
    b = decide ((srv w.posts).httpCode = 200) ∧ w.posts < w1.posts ∧
      ∃ evs, SendFrame w w1 evs ∧ ∀ e ∈ evs, e.isNested := by
  have h1 : Client._send srv fuel (Client.deviceInfoBody w).1 1 (Client.deviceInfoBody w).2
      = Except.ok (b, w1) := h
  obtain ⟨e0, hf0, hp0, hn0, f, hbody⟩ := Client.deviceInfoBody_frame w
  obtain ⟨hb, hp, evs, hf, hn⟩ :=
    hsend (Client.deviceInfoBody w).1 1 (Client.deviceInfoBody w).2 b w1 h1
  rw [hp0] at hb hp
  refine ⟨hb, hp, _, hf0.trans hf, ?_⟩
  intro e he
  rcases List.mem_append.1 he with he | he
  · exact hn0 e he
  · rcases List.mem_cons.1 he with he | he
    · subst he
      rw [Client.request, hbody]
      simp [Event.isNested]
    · exact hn e he

/-- What a returning call of `_send` did: it returns whether its own request
was answered with status 200, it issued at least that request, it changed of
the client at most the ticker and `userConfig`, and everything it caused
after its own request is device-info traffic. -/
theorem Client._send_ok (srv : Nat → Response PL) :
    ∀ (fuel : Nat) (body : Body UR) (method : Int) (w : World UR UC PL BS) (b : Bool)
      (w1 : World UR UC PL BS),
      Client._send srv fuel body method w = Except.ok (b, w1) →
      b = decide ((srv w.posts).httpCode = 200) ∧ w.posts < w1.posts ∧
      ∃ evs, SendFrame w w1 (Client.request body method w :: evs) ∧ ∀ e ∈ evs, e.isNested := by
  intro fuel
  induction fuel with
  | zero =>
    intro body method w b w1 h
    simp [Client._send, throw, throwThe, MonadExceptOf.throw] at h
  | succ fuel ih =>
    intro body method w b w1 h
    rw [Client._send_succ] at h
    have hown : SendFrame w ({ w with posts := w.posts + 1 }.emit (Client.request body method w))
        [Client.request body method w] := ⟨rfl, rfl, rfl, rfl⟩
    by_cases hc : (srv w.posts).httpCode = 200
    · simp only [hc, ne_eq, not_true_eq_false, if_false] at h
      obtain ⟨w3, h3, h⟩ := Except.bind_eq_ok h
      obtain ⟨w4, h4, h⟩ := Except.bind_eq_ok h
      simp only [pure, Except.pure, Except.ok.injEq, Prod.mk.injEq] at h
      obtain ⟨hb, hw⟩ := h
      subst hw
      obtain ⟨e4, hf4, hp4, hn4⟩ := Client.forwardPayload_frame _ _ _ h4
      obtain ⟨hfa, hpa⟩ := Client.applyAcqPeriod_frame (srv w.posts)
        ({ w with posts := w.posts + 1 }.emit (Client.request body method w))
      have h13 : w.posts < w3.posts ∧ ∃ e3, SendFrame
          (Client.applyAcqPeriod (srv w.posts)
            ({ w with posts := w.posts + 1 }.emit (Client.request body method w))) w3 e3 ∧
          ∀ e ∈ e3, e.isNested := by
        by_cases hd : (srv w.posts).devInfoCheck = true
        · simp only [hd, if_true] at h3
          obtain ⟨r, hr, h3⟩ := Except.bind_eq_ok h3
          simp only [pure, Except.pure, Except.ok.injEq] at h3
          subst h3
          obtain ⟨_, hp, e3, hf3, hn3⟩ :=
            Client.sendDeviceInfo_of_send srv fuel ih _ r.1 r.2 hr
          rw [hpa] at hp
          simp only [World.emit_posts] at hp
          exact ⟨by omega, e3, hf3, hn3⟩
        · simp only [hd, if_false, Bool.false_eq_true] at h3
          simp only [pure, Except.pure, Except.ok.injEq] at h3
          subst h3
          rw [hpa]
          simp only [World.emit_posts]
          exact ⟨by omega, [], SendFrame.refl _, by simp⟩
      obtain ⟨hp3, e3, hf3, hn3⟩ := h13
      refine ⟨by simp [hc, ← hb], by omega, e3 ++ e4, ?_, ?_⟩
      · have := ((hown.trans hfa).trans hf3).trans hf4
        simpa using this
      · intro e he
        rcases List.mem_append.1 he with he | he
        · exact hn3 e he
        · exact hn4 e he
    · simp only [hc, ne_eq, not_false_eq_true, if_true] at h
      simp only [pure, Except.pure, Except.ok.injEq, Prod.mk.injEq] at h
      obtain ⟨hb, hw⟩ := h
      subst hw
      refine ⟨by simp [hc, ← hb], by simp, [], hown, by simp⟩

/-- What a returning call of `sendDeviceInfo` did. -/
theorem Client.sendDeviceInfo_ok (srv : Nat → Response PL) (fuel : Nat)
    (w : World UR UC PL BS) (b : Bool) (w1 : World UR UC PL BS)
    (h : Client.sendDeviceInfo srv fuel w = Except.ok (b, w1)) :
    b = decide ((srv w.posts).httpCode = 200) ∧ w.posts < w1.posts ∧
      ∃ evs, SendFrame w w1 evs ∧ ∀ e ∈ evs, e.isNested :=
  Client.sendDeviceInfo_of_send srv fuel (Client._send_ok srv fuel) w b w1 h



theorem Event.isNested_upload {e : Event UR UC PL} (h : e.isNested) : e.upload? = none := by
  cases e with
  | post idx method acq uc body =>
    cases body with
    | record r n b => exact absurd h (by simp [Event.isNested])
    | deviceInfo f => rfl
  | _ => rfl

theorem Event.isNested_hook {e : Event UR UC PL} (h : e.isNested) : e.isMeasureHook = false := by
  cases e <;> first | rfl | exact absurd h (by simp [Event.isNested])

theorem uploads_append (a b : List (Event UR UC PL)) : uploads (a ++ b) = uploads a ++ uploads b := by
  simp [uploads, List.filterMap_append]

theorem uploads_nested {evs : List (Event UR UC PL)} (h : ∀ e ∈ evs, e.isNested) :
    uploads evs = [] := by
  induction evs with
  | nil => rfl
  | cons e evs ih =>
    have he := Event.isNested_upload (h e (List.mem_cons_self _ _))
    have := ih (fun x hx => h x (List.mem_cons_of_mem _ hx))
    simp only [uploads] at this ⊢
    rw [List.filterMap_cons, he]
    exact this

theorem attempts_append (srv : Nat → Response PL) (a b : List (Event UR UC PL)) :
    attempts srv (a ++ b) = attempts srv a ++ attempts srv b := by
  simp [attempts, uploads_append]

/-- What a returning call of `sendRecord` did: exactly one record upload, of
the record passed, and the result is whether that request was answered with
status 200. -/
theorem Client.sendRecord_ok (srv : Nat → Response PL) (fuel : Nat) (r : Record UR)
    (w : World UR UC PL BS) (b : Bool) (w1 : World UR UC PL BS)
    (h : Client.sendRecord srv fuel r w = Except.ok (b, w1)) :
    b = decide ((srv w.posts).httpCode = 200) ∧
    ∃ evs, SendFrame w w1 evs ∧ attempts srv evs = [(r, b)] ∧ uploads evs = [(w.posts, r)] ∧
      ∀ e ∈ evs, e.isMeasureHook = false := by
  unfold Client.sendRecord at h
  obtain ⟨hb, _, evs, hf, hn⟩ := Client._send_ok srv fuel _ _ _ _ _ h
  refine ⟨hb, _, hf, ?_, ?_, ?_⟩
  · have : uploads (Client.request (Body.record r w.timeClient.getCurrentEpoch w.client._bootID)
        0 w :: evs) = [(w.posts, r)] := by
      have h2 := uploads_nested hn
      simp only [uploads] at h2 ⊢
      rw [List.filterMap_cons]
      simp [Client.request, Event.upload?, h2]
    simp [attempts, this, hb]
  · have h2 := uploads_nested hn
    simp only [uploads] at h2 ⊢
    rw [List.filterMap_cons]
    simp [Client.request, Event.upload?, h2]
  · intro e he
    rcases List.mem_cons.1 he with he | he
    · subst he
      rfl
    · exact Event.isNested_hook (hn e he)

/-- What a returning run of the loop of `sendPending` did. -/
theorem Client.sendPendingLoop_ok (srv : Nat → Response PL) (fuel : Nat) :
    ∀ (n : Nat) (s : Bool) (w : World UR UC PL BS) (b : Bool) (w1 : World UR UC PL BS),
      Client.sendPendingLoop srv fuel n s w = Except.ok (b, w1) →
      ∃ evs, DrainFrame w w1 evs ∧
        Drains w.client._buffer.data (attempts srv evs) w1.client._buffer.data ∧
        b = (s && (attempts srv evs).all (fun a => a.2)) ∧
        (attempts srv evs).length ≤ n ∧
        (∀ e ∈ evs, e.isMeasureHook = false) := by
  intro n
  induction n with
  | zero =>
    intro s w b w1 h
    simp only [Client.sendPendingLoop, pure, Except.pure, Except.ok.injEq, Prod.mk.injEq] at h
    obtain ⟨hb, hw⟩ := h
    subst hw
    exact ⟨[], ⟨rfl, rfl, rfl, by simp⟩, by simp [attempts, uploads, Drains],
      by simp [attempts, uploads, hb], by simp [attempts, uploads], by simp⟩
  | succ n ih =>
    intro s w b w1 h
    rw [Client.sendPendingLoop] at h
    cases hfirst : w.client._buffer.first with
    | none =>
      simp only [hfirst, pure, Except.pure, Except.ok.injEq, Prod.mk.injEq] at h
      obtain ⟨hb, hw⟩ := h
      subst hw
      exact ⟨[], ⟨rfl, rfl, rfl, by simp⟩, by simp [attempts, uploads, Drains],
        by simp [attempts, uploads, hb], by simp [attempts, uploads], by simp⟩
    | some r =>
      simp only [hfirst] at h
      obtain ⟨x, hx, h⟩ := Except.bind_eq_ok h
      obtain ⟨sent, wr⟩ := x
      obtain ⟨hsent, e1, hf1, ha1, _, hh1⟩ := Client.sendRecord_ok srv fuel r w sent wr hx
      have hbuf : wr.client._buffer = w.client._buffer := hf1.buffer
      have hhead : w.client._buffer.data.head? = some r := hfirst
      cases hs : sent with
      | true =>
        simp only [hs, if_true] at h
        obtain ⟨e2, hf2, hd2, hb2, hl2, hh2⟩ := ih _ _ _ _ h
        refine ⟨e1 ++ e2, ?_, ?_, ?_, ?_, ?_⟩
        · refine ⟨?_, ?_, ?_, ?_⟩
          · rw [hf2.client]; simp only []; rw [hf1.client]
          · rw [hf2.timeClient]; exact hf1.timeClient
          · rw [hf2.gets]; exact hf1.gets
          · rw [hf2.trace]; simp only []; rw [hf1.trace, List.append_assoc]
        · rw [attempts_append, ha1, hs]
          simp only [List.singleton_append, Drains, if_true]
          refine ⟨hhead, ?_⟩
          simpa [CircularBuffer.shift, hbuf] using hd2
        · rw [attempts_append, ha1, hs, hb2]
          simp
        · rw [attempts_append, ha1]
          simp only [List.singleton_append, List.length_cons]
          omega
        · intro e he
          rcases List.mem_append.1 he with he | he
          · exact hh1 e he
          · exact hh2 e he
      | false =>
        simp only [hs, if_false, Bool.false_eq_true] at h
        obtain ⟨e2, hf2, hd2, hb2, hl2, hh2⟩ := ih _ _ _ _ h
        refine ⟨e1 ++ e2, ?_, ?_, ?_, ?_, ?_⟩
        · refine ⟨?_, ?_, ?_, ?_⟩
          · rw [hf2.client, hf1.client]
          · rw [hf2.timeClient]; exact hf1.timeClient
          · rw [hf2.gets]; exact hf1.gets
          · rw [hf2.trace, hf1.trace, List.append_assoc]
        · rw [attempts_append, ha1, hs]
          simp only [List.singleton_append, Drains, if_false, Bool.false_eq_true]
          refine ⟨hhead, ?_⟩
          simpa [hbuf] using hd2
        · rw [attempts_append, ha1, hs, hb2]
          simp
        · rw [attempts_append, ha1]
          simp only [List.singleton_append, List.length_cons]
          omega
        · intro e he
          rcases List.mem_append.1 he with he | he
          · exact hh1 e he
          · exact hh2 e he

/-- What a returning call of `measure` yields: the record carries the two
clock-derived fields, the flag is the one of the callback, the objects are
untouched (the method is `const`), and the callbacks invoked are
`_beforeMeasure` when set, `_onMeasure`, and `_afterMeasure` when set and the
measurement succeeded. -/
theorem Client.measure_ok [Inhabited UR] (inp : TickInput UR PL) (w w1 : World UR UC PL BS)
    (r : Record UR × Bool) (h : Client.measure inp w = Except.ok (r, w1)) :
    r.1.uptime = inp.uptime ∧
    r.1.timestamp = w.timeClient.getEpochTime inp.epochNow ∧
    r.2 = inp.meas.2 ∧
    w1.client = w.client ∧ w1.timeClient = w.timeClient ∧
    w1.posts = w.posts ∧ w1.gets = w.gets ∧
    w1.trace = w.trace
      ++ (if w.client._beforeMeasure then [Event.beforeMeasure] else [])
      ++ [Event.onMeasure]
      ++ (if inp.meas.2 && w.client._afterMeasure then [Event.afterMeasure] else []) := by
  unfold Client.measure at h
  cases hb : w.client._beforeMeasure <;> cases ha : w.client._afterMeasure <;>
    cases hm : inp.meas.2 <;> cases ho : w.client._onMeasure <;>
    simp [hb, ha, hm, ho, pure, Except.pure, throw, throwThe, MonadExceptOf.throw] at h <;>
    obtain ⟨h1, h2⟩ := h <;> subst h1 <;> subst h2 <;> simp [hb, ha, hm, ho]

/-- With the callback `_onMeasure` set, `measure` returns. -/
theorem Client.measure_returns [Inhabited UR] (inp : TickInput UR PL) (w : World UR UC PL BS)
    (ho : w.client._onMeasure = true) : ∃ r w1, Client.measure inp w = Except.ok (r, w1) := by
  unfold Client.measure
  cases hb : w.client._beforeMeasure <;> cases ha : w.client._afterMeasure <;>
    cases hm : inp.meas.2 <;>
    simp only [hb, ha, hm, ho, World.emit_client, if_true, if_false, Bool.false_eq_true,
      Bool.true_eq_false, reduceCtorEq] <;>
    exact ⟨_, _, rfl⟩

/-- What a returning measurement step did: it returns exactly when
`_onMeasure` is set; it changes `_measure_state`, `_lastRecord` and the store
as the four branches of lines 185-198 say, and nothing else. -/
theorem Client.measureStep_ok [Inhabited UR] (inp : TickInput UR PL) (w w1 : World UR UC PL BS)
    (h : Client.measureStep inp w = Except.ok w1) :
    w1.timeClient = w.timeClient ∧ w1.posts = w.posts ∧ w1.gets = w.gets ∧
    w1.trace = w.trace
      ++ (if w.client._beforeMeasure then [Event.beforeMeasure] else [])
      ++ [Event.onMeasure]
      ++ (if inp.meas.2 && w.client._afterMeasure then [Event.afterMeasure] else []) ∧
    w1.client =
      (if inp.meas.2 then
        if inp.due then
          if w.client._buffer.isFull then
            { w.client with _lastRecord := Client.measured inp w
                            _measure_state := MEASURE_STATE.BUFFER_FULL }
          else
            { w.client with _lastRecord := Client.measured inp w
                            _measure_state := MEASURE_STATE.STORE
                            _buffer := { data := w.client._buffer.data ++ [Client.measured inp w] } }
        else
          { w.client with _lastRecord := Client.measured inp w
                          _measure_state := MEASURE_STATE.SUCCESS }
      else { w.client with _measure_state := MEASURE_STATE.ERROR }) := by
  unfold Client.measureStep Client.measure at h
  cases ho : w.client._onMeasure
  · cases hb : w.client._beforeMeasure <;>
      simp [ho, hb, throw, throwThe, MonadExceptOf.throw, bind, Except.bind] at h
  · cases hb : w.client._beforeMeasure <;> cases ha : w.client._afterMeasure <;>
      cases hm : inp.meas.2 <;> cases hd : inp.due <;> cases hf : w.client._buffer.isFull <;>
      simp [ho, hb, ha, hm, hd, hf, pure, Except.pure, bind, Except.bind, CircularBuffer.push,
        Client.measured] at h <;>
      subst h <;> simp [ho, hb, ha, hm, hd, hf, Client.measured]



/-- With the callback `_onMeasure` set, the measurement step returns. -/
theorem Client.measureStep_returns [Inhabited UR] (inp : TickInput UR PL) (w : World UR UC PL BS)
    (ho : w.client._onMeasure = true) : ∃ w1, Client.measureStep inp w = Except.ok w1 := by
  obtain ⟨r, wm, hm⟩ := Client.measure_returns inp
    ({ w with client := { w.client with _measure_state := MEASURE_STATE.IDLE } }) ho
  unfold Client.measureStep
  simp only [hm, bind, Except.bind]
  split <;> [split <;> [split <;> exact ⟨_, rfl⟩; exact ⟨_, rfl⟩]; exact ⟨_, rfl⟩]

/-- Successful attempts remove records from the front, failed ones nothing:
the store before is the successfully uploaded records followed by the store
after. -/
theorem Drains.split : ∀ (att : List (Record UR × Bool)) (buf buf1 : List (Record UR)),
    Drains buf att buf1 → buf = ((att.filter fun a => a.2).map fun a => a.1) ++ buf1 := by
  intro att
  induction att with
  | nil =>
    intro buf buf1 h
    simp only [Drains] at h
    simp [h]
  | cons a att ih =>
    intro buf buf1 h
    obtain ⟨hh, ht⟩ := h
    cases ha : a.2 with
    | true =>
      simp only [ha, if_true] at ht
      have := ih _ _ ht
      cases buf with
      | nil => simp at hh
      | cons x xs =>
        simp only [List.head?_cons, Option.some.injEq] at hh
        simp only [List.tail_cons] at this
        simp [List.filter_cons, ha, hh, this]
    | false =>
      simp only [ha, if_false, Bool.false_eq_true] at ht
      have := ih _ _ ht
      simp [List.filter_cons, ha, this]

/-- What a returning drain step did. -/
theorem Client.sendStep_ok (inp : TickInput UR PL) (fuel : Nat) (w w1 : World UR UC PL BS)
    (h : Client.sendStep inp fuel w = Except.ok w1) :
    ∃ evs, w1.trace = w.trace ++ evs ∧ (∀ e ∈ evs, e.isMeasureHook = false) ∧
      Drains w.client._buffer.data (attempts inp.srv evs) w1.client._buffer.data ∧
      w1.client._measure_state = w.client._measure_state ∧
      w1.client._lastRecord = w.client._lastRecord ∧
      w1.timeClient = w.timeClient := by
  unfold Client.sendStep at h
  cases he : w.client._buffer.isEmpty with
  | true =>
    simp only [he, if_true, pure, Except.pure, Except.ok.injEq] at h
    subst h
    exact ⟨[], by simp, by simp, by simp [attempts, uploads, Drains], rfl, rfl, rfl⟩
  | false =>
    simp only [he, if_false, Bool.false_eq_true] at h
    obtain ⟨x, hx, h⟩ := Except.bind_eq_ok h
    obtain ⟨sent, wr⟩ := x
    obtain ⟨evs, hf, hd, _, _, hh⟩ := Client.sendPendingLoop_ok inp.srv fuel 1 true w sent wr hx
    have hc := hf.client
    cases sent <;>
      simp only [if_true, if_false, Bool.false_eq_true, pure, Except.pure, Except.ok.injEq] at h <;>
      subst h <;>
      exact ⟨evs, hf.trace, hh, hd, by simp only []; rw [hc], by simp only []; rw [hc],
        hf.timeClient⟩

/-- What a returning call of `loop` did, in terms of its measurement step. -/
theorem Client.loop_ok [Inhabited UR] (inp : TickInput UR PL) (fuel : Nat)
    (w w2 : World UR UC PL BS) (h : Client.loop inp fuel w = Except.ok w2) :
    ∃ w1 evs, Client.measureStep inp w = Except.ok w1 ∧
      w2.trace = w1.trace ++ evs ∧ (∀ e ∈ evs, e.isMeasureHook = false) ∧
      Drains w1.client._buffer.data (attempts inp.srv evs) w2.client._buffer.data ∧
      w2.client._measure_state = w1.client._measure_state ∧
      w2.client._lastRecord = w1.client._lastRecord := by
  unfold Client.loop at h
  obtain ⟨w1, h1, h⟩ := Except.bind_eq_ok h
  obtain ⟨ws, hs, h⟩ := Except.bind_eq_ok h
  simp only [pure, Except.pure, Except.ok.injEq] at h
  subst h
  obtain ⟨evs, ht, hh, hd, hm, hl, _⟩ := Client.sendStep_ok inp fuel w1 ws hs
  exact ⟨w1, evs, h1, ht, hh, hd, hm, hl⟩

/-- Once the local `success` is false the loop of `sendPending` returns false. -/
theorem Client.sendPendingLoop_false (srv : Nat → Response PL) (fuel n : Nat)
    (w w1 : World UR UC PL BS) (b : Bool)
    (h : Client.sendPendingLoop srv fuel n false w = Except.ok (b, w1)) : b = false := by
  obtain ⟨_, _, _, hb, _, _⟩ := Client.sendPendingLoop_ok srv fuel n false w b w1 h
  simpa using hb

/-- A drain leaves at most as many records as it found. -/
theorem Drains.length_le (att : List (Record UR × Bool)) (buf buf1 : List (Record UR))
    (h : Drains buf att buf1) : buf1.length ≤ buf.length := by
  have := congrArg List.length (Drains.split att buf buf1 h)
  simp only [List.length_append] at this
  omega

theorem deviceInfoRequests_append (a b : List (Event UR UC PL)) :
    deviceInfoRequests (a ++ b) = deviceInfoRequests a + deviceInfoRequests b := by
  simp [deviceInfoRequests, List.countP_append]

/-- The payload handler issues no request and keeps itself. -/
theorem Client.forwardPayload_trace (resp : Response PL) (w w1 : World UR UC PL BS)
    (h : Client.forwardPayload resp w = Except.ok w1) :
    w1.posts = w.posts ∧
    w1.client._onUserServerPayload = w.client._onUserServerPayload ∧
    ∃ evs, w1.trace = w.trace ++ evs ∧ deviceInfoRequests evs = 0 := by
  unfold Client.forwardPayload at h
  cases hp : resp.userServerPayload with
  | none =>
    simp [hp, pure, Except.pure] at h
    subst h
    exact ⟨rfl, rfl, [], by simp, rfl⟩
  | some p =>
    cases hf : w.client._onUserServerPayload with
    | none => simp [hp, hf, throw, throwThe, MonadExceptOf.throw] at h
    | some f =>
      simp [hp, hf, pure, Except.pure] at h
      subst h
      exact ⟨rfl, by simp [hf], [Event.onUserServerPayload p], by simp, rfl⟩

/-- The payload step returns when there is no payload or a handler is set. -/
theorem Client.forwardPayload_returns (resp : Response PL) (w : World UR UC PL BS)
    (h : w.client._onUserServerPayload.isSome = true ∨ resp.userServerPayload = none) :
    ∃ w1, Client.forwardPayload resp w = Except.ok w1 := by
  unfold Client.forwardPayload
  cases hp : resp.userServerPayload with
  | none => exact ⟨_, rfl⟩
  | some p =>
    cases hf : w.client._onUserServerPayload with
    | none => simp [hp, hf] at h
    | some f => exact ⟨_, rfl⟩

/-- The chain of device-info uploads. When the `k` responses from the one to
the own request of `_send` on are status 200 with `devInfoCheck` and the next
one is not, `_send` returns (given fuel for `k + 1` nested calls and no
payload without handler) after `k + 1` requests, `k` of them device-info
requests caused by the responses. -/
theorem Client._send_chain (srv : Nat → Response PL) :
    ∀ (k fuel : Nat) (body : Body UR) (method : Int) (w : World UR UC PL BS),
      (∀ i, i < k → (srv (w.posts + i)).httpCode = 200 ∧ (srv (w.posts + i)).devInfoCheck = true) →
      ¬ ((srv (w.posts + k)).httpCode = 200 ∧ (srv (w.posts + k)).devInfoCheck = true) →
      (w.client._onUserServerPayload.isSome = true ∨
        ∀ i, i ≤ k → (srv (w.posts + i)).httpCode = 200 →
          (srv (w.posts + i)).userServerPayload = none) →
      k < fuel →
      ∃ w1, Client._send srv fuel body method w =
          Except.ok (decide ((srv w.posts).httpCode = 200), w1) ∧
        w1.posts = w.posts + k + 1 ∧
        w1.client._onUserServerPayload = w.client._onUserServerPayload ∧
        ∃ evs, w1.trace = w.trace ++ Client.request body method w :: evs ∧
          deviceInfoRequests evs = k := by
  intro k
  induction k with
  | zero =>
    intro fuel body method w _ hend hpl hfuel
    obtain ⟨f, rfl⟩ : ∃ f, fuel = f + 1 := ⟨fuel - 1, by omega⟩
    simp only [Nat.add_zero] at hend
    rw [Client._send_succ]
    by_cases hc : (srv w.posts).httpCode = 200
    · have hd : (srv w.posts).devInfoCheck = false := by
        cases hdd : (srv w.posts).devInfoCheck
        · rfl
        · exact absurd ⟨hc, hdd⟩ hend
      simp only [hc, hd, ne_eq, not_true_eq_false, if_false, Bool.false_eq_true]
      obtain ⟨hfa, hpa⟩ := Client.applyAcqPeriod_frame (srv w.posts)
        ({ w with posts := w.posts + 1 }.emit (Client.request body method w))
      obtain ⟨w4, h4⟩ := Client.forwardPayload_returns (srv w.posts)
        (Client.applyAcqPeriod (srv w.posts)
          ({ w with posts := w.posts + 1 }.emit (Client.request body method w)))
        (by
          rcases hpl with hpl | hpl
          · left; rw [hfa.handler]; exact hpl
          · right; exact hpl 0 (Nat.le_refl 0) hc)
      obtain ⟨hp4, hh4, e4, ht4, hn4⟩ := Client.forwardPayload_trace _ _ _ h4
      refine ⟨w4, ?_, ?_, ?_, e4, ?_, hn4⟩
      · simp [h4, bind, Except.bind, pure, Except.pure]
      · rw [hp4, hpa]; rfl
      · rw [hh4, hfa.handler]; rfl
      · rw [ht4, hfa.trace]; simp
    · simp only [hc, ne_eq, not_false_eq_true, if_true]
      exact ⟨{ w with posts := w.posts + 1 }.emit (Client.request body method w),
        by simp [hc, pure, Except.pure], rfl, rfl, [], by simp, rfl⟩
  | succ k ih =>
    intro fuel body method w hchain hend hpl hfuel
    obtain ⟨f, rfl⟩ : ∃ f, fuel = f + 1 := ⟨fuel - 1, by omega⟩
    obtain ⟨hc, hd⟩ := hchain 0 (Nat.succ_pos k)
    simp only [Nat.add_zero] at hc hd
    rw [Client._send_succ]
    simp only [hc, hd, ne_eq, not_true_eq_false, if_false, if_true]
    obtain ⟨hfa, hpa⟩ := Client.applyAcqPeriod_frame (srv w.posts)
      ({ w with posts := w.posts + 1 }.emit (Client.request body method w))
    generalize hw2 : Client.applyAcqPeriod (srv w.posts)
      ({ w with posts := w.posts + 1 }.emit (Client.request body method w)) = w2 at hfa hpa ⊢
    have hp2 : w2.posts = w.posts + 1 := by rw [hpa]; rfl
    have hh2 : w2.client._onUserServerPayload = w.client._onUserServerPayload := by
      rw [hfa.handler]; rfl
    obtain ⟨e0, hf0, hp0, _, _⟩ := Client.deviceInfoBody_frame w2
    have hn0 : ∃ e0, (Client.deviceInfoBody w2).2.trace = w2.trace ++ e0 ∧
        deviceInfoRequests e0 = 0 := by
      unfold Client.deviceInfoBody
      cases w2.client._fillDeviceInfo
      · exact ⟨[], by simp, rfl⟩
      · exact ⟨[Event.fillDeviceInfo], by simp, rfl⟩
    obtain ⟨e0, ht0, hn0⟩ := hn0
    have hpd : (Client.deviceInfoBody w2).2.posts = w.posts + 1 := by rw [hp0, hp2]
    obtain ⟨w3, h3, hp3, hh3, e3, ht3, hn3⟩ := ih f (Client.deviceInfoBody w2).1 1
      (Client.deviceInfoBody w2).2
      (by
        intro i hi
        rw [hpd]
        have := hchain (i + 1) (by omega)
        rwa [show w.posts + (i + 1) = w.posts + 1 + i by omega] at this)
      (by
        rw [hpd]
        rwa [show w.posts + (k + 1) = w.posts + 1 + k by omega] at hend)
      (by
        rcases hpl with hpl | hpl
        · left; rw [hf0.handler, hh2]; exact hpl
        · right
          intro i hi
          rw [hpd]
          have := hpl (i + 1) (by omega)
          rwa [show w.posts + (i + 1) = w.posts + 1 + i by omega] at this)
      (by omega)
    obtain ⟨w4, h4⟩ := Client.forwardPayload_returns (srv w.posts) w3
      (by
        rcases hpl with hpl | hpl
        · left; rw [hh3, hf0.handler, hh2]; exact hpl
        · right; exact hpl 0 (Nat.zero_le _) hc)
    obtain ⟨hp4, hh4, e4, ht4, hn4⟩ := Client.forwardPayload_trace _ _ _ h4
    have hsd : Client.sendDeviceInfo srv f w2 = Except.ok
        (decide ((srv (Client.deviceInfoBody w2).2.posts).httpCode = 200), w3) := h3
    refine ⟨w4, ?_, ?_, ?_, e0 ++ Client.request (Client.deviceInfoBody w2).1 1
      (Client.deviceInfoBody w2).2 :: e3 ++ e4, ?_, ?_⟩
    · simp [hsd, h4, bind, Except.bind, pure, Except.pure]
    · rw [hp4, hp3, hpd]; omega
    · rw [hh4, hh3, hf0.handler, hh2]
    · rw [ht4, ht3, ht0, hfa.trace]; simp
    · rw [deviceInfoRequests_append, deviceInfoRequests_append, hn0, hn4]
      have : deviceInfoRequests (Client.request (Client.deviceInfoBody w2).1 1
          (Client.deviceInfoBody w2).2 :: e3) = deviceInfoRequests e3 + 1 := by
        simp [deviceInfoRequests, Client.request, Event.isDeviceInfoPost]
      rw [this, hn3]; omega

/-- The payload step aborts when the response carries `userServerPayload` and
no handler is set. -/
theorem Client.forwardPayload_faults (resp : Response PL) (w : World UR UC PL BS)
    (hp : resp.userServerPayload ≠ none) (hh : w.client._onUserServerPayload = none) :
    Client.forwardPayload resp w = Except.error Fault.badFunctionCall := by
  unfold Client.forwardPayload
  cases hpl : resp.userServerPayload with
  | none => exact absurd hpl hp
  | some p => simp only [hh]; rfl

/-- The chain of device-info uploads with no payload handler set: when one of
the status-200 responses of the chain carries `userServerPayload`, the call
of `_send` does not return but ends in the call of the empty handler. -/
theorem Client._send_chain_faults (srv : Nat → Response PL) :
    ∀ (k fuel : Nat) (body : Body UR) (method : Int) (w : World UR UC PL BS),
      (∀ i, i < k → (srv (w.posts + i)).httpCode = 200 ∧ (srv (w.posts + i)).devInfoCheck = true) →
      ¬ ((srv (w.posts + k)).httpCode = 200 ∧ (srv (w.posts + k)).devInfoCheck = true) →
      w.client._onUserServerPayload = none →
      (∃ i, i ≤ k ∧ (srv (w.posts + i)).httpCode = 200 ∧
        (srv (w.posts + i)).userServerPayload ≠ none) →
      k < fuel →
      Client._send srv fuel body method w = Except.error Fault.badFunctionCall := by
  intro k
  induction k with
  | zero =>
    intro fuel body method w _ hend hh hbad hfuel
    obtain ⟨f, rfl⟩ : ∃ f, fuel = f + 1 := ⟨fuel - 1, by omega⟩
    obtain ⟨i, hi, hc, hp⟩ := hbad
    obtain rfl : i = 0 := by omega
    simp only [Nat.add_zero] at hend hc hp
    have hd : (srv w.posts).devInfoCheck = false := by
      cases hdd : (srv w.posts).devInfoCheck
      · rfl
      · exact absurd ⟨hc, hdd⟩ hend
    obtain ⟨hfa, _⟩ := Client.applyAcqPeriod_frame (srv w.posts)
      ({ w with posts := w.posts + 1 }.emit (Client.request body method w))
    rw [Client._send_succ]
    simp only [hc, hd, ne_eq, not_true_eq_false, if_false, Bool.false_eq_true]
    have := Client.forwardPayload_faults (srv w.posts)
      (Client.applyAcqPeriod (srv w.posts)
        ({ w with posts := w.posts + 1 }.emit (Client.request body method w)))
      hp (by rw [hfa.handler]; exact hh)
    simp [this, bind, Except.bind, pure, Except.pure]
  | succ k ih =>
    intro fuel body method w hchain hend hh hbad hfuel
    obtain ⟨f, rfl⟩ : ∃ f, fuel = f + 1 := ⟨fuel - 1, by omega⟩
    obtain ⟨hc, hd⟩ := hchain 0 (Nat.succ_pos k)
    simp only [Nat.add_zero] at hc hd
    rw [Client._send_succ]
    simp only [hc, hd, ne_eq, not_true_eq_false, if_false, if_true]
    obtain ⟨hfa, hpa⟩ := Client.applyAcqPeriod_frame (srv w.posts)
      ({ w with posts := w.posts + 1 }.emit (Client.request body method w))
    generalize hw2 : Client.applyAcqPeriod (srv w.posts)
      ({ w with posts := w.posts + 1 }.emit (Client.request body method w)) = w2 at hfa hpa ⊢
    have hp2 : w2.posts = w.posts + 1 := by rw [hpa]; rfl
    have hh2 : w2.client._onUserServerPayload = none := by
      rw [hfa.handler]; exact hh
    obtain ⟨_, hf0, hp0, _, _⟩ := Client.deviceInfoBody_frame w2
    have hpd : (Client.deviceInfoBody w2).2.posts = w.posts + 1 := by rw [hp0, hp2]
    have hhd : (Client.deviceInfoBody w2).2.client._onUserServerPayload = none := by
      rw [hf0.handler]; exact hh2
    have hchain1 : ∀ i, i < k →
        (srv ((Client.deviceInfoBody w2).2.posts + i)).httpCode = 200 ∧
        (srv ((Client.deviceInfoBody w2).2.posts + i)).devInfoCheck = true := by
      intro i hi
      rw [hpd]
      have := hchain (i + 1) (by omega)
      rwa [show w.posts + (i + 1) = w.posts + 1 + i by omega] at this
    have hend1 : ¬ ((srv ((Client.deviceInfoBody w2).2.posts + k)).httpCode = 200 ∧
        (srv ((Client.deviceInfoBody w2).2.posts + k)).devInfoCheck = true) := by
      rw [hpd]
      rwa [show w.posts + (k + 1) = w.posts + 1 + k by omega] at hend
    by_cases hex : ∃ i, i ≤ k ∧ (srv (w.posts + 1 + i)).httpCode = 200 ∧
        (srv (w.posts + 1 + i)).userServerPayload ≠ none
    · have h3 := ih f (Client.deviceInfoBody w2).1 1 (Client.deviceInfoBody w2).2
        hchain1 hend1 hhd (by rw [hpd]; exact hex) (by omega)
      have hsd : Client.sendDeviceInfo srv f w2 = Except.error Fault.badFunctionCall := h3
      simp [hsd, bind, Except.bind]
    · have hp0' : (srv w.posts).userServerPayload ≠ none := by
        obtain ⟨i, hi, hci, hpi⟩ := hbad
        cases i with
        | zero => simpa using hpi
        | succ j =>
          exfalso
          apply hex
          refine ⟨j, by omega, ?_, ?_⟩
          · rwa [show w.posts + (j + 1) = w.posts + 1 + j by omega] at hci
          · rwa [show w.posts + (j + 1) = w.posts + 1 + j by omega] at hpi
      obtain ⟨w3, h3, _, hh3, _⟩ := Client._send_chain srv k f (Client.deviceInfoBody w2).1 1
        (Client.deviceInfoBody w2).2 hchain1 hend1
        (Or.inr (by
          intro i hi hci
          rw [hpd] at hci ⊢
          by_contra hne
          exact hex ⟨i, hi, hci, hne⟩))
        (by omega)
      have hsd : Client.sendDeviceInfo srv f w2 = Except.ok
          (decide ((srv (Client.deviceInfoBody w2).2.posts).httpCode = 200), w3) := h3
      have := Client.forwardPayload_faults (srv w.posts) w3 hp0' (by rw [hh3]; exact hhd)
      simp [hsd, this, bind, Except.bind, pure, Except.pure]

/-- Against a server whose every response is status 200 with `devInfoCheck`,
no call of `_send` returns: whatever fuel is given, the nesting of
device-info uploads uses it up. -/
theorem Client._send_never_returns (srv : Nat → Response PL)
    (h : ∀ i, (srv i).httpCode = 200 ∧ (srv i).devInfoCheck = true) :
    ∀ (fuel : Nat) (body : Body UR) (method : Int) (w : World UR UC PL BS),
      Client._send srv fuel body method w = Except.error Fault.outOfFuel := by
  intro fuel
  induction fuel with
  | zero => intro body method w; rfl
  | succ f ih =>
    intro body method w
    rw [Client._send_succ]
    simp only [(h w.posts).1, (h w.posts).2, ne_eq, not_true_eq_false, if_false, if_true]
    have : ∀ w2 : World UR UC PL BS,
        Client.sendDeviceInfo srv f w2 = Except.error Fault.outOfFuel := by
      intro w2
      exact ih (Client.deviceInfoBody w2).1 1 (Client.deviceInfoBody w2).2
    rw [this]
    rfl

theorem PayloadSafe.of_handler {srv : Nat → Response PL} {w w1 : World UR UC PL BS}
    (h : PayloadSafe srv w)
    (hh : w1.client._onUserServerPayload = w.client._onUserServerPayload) :
    PayloadSafe srv w1 := by
  rcases h with h | h
  · left; rw [hh]; exact h
  · right; exact h

/-- Under `Answers` and `PayloadSafe` every call of `_send` returns. -/
theorem Client._send_returns (srv : Nat → Response PL) (fuel : Nat) (body : Body UR)
    (method : Int) (w : World UR UC PL BS) (ha : Answers srv fuel) (hp : PayloadSafe srv w) :
    ∃ b w1, Client._send srv fuel body method w = Except.ok (b, w1) := by
  obtain ⟨k, hk, hchain, hend⟩ := ha w.posts
  obtain ⟨w1, h1, _⟩ := Client._send_chain srv k fuel body method w hchain hend
    (by
      rcases hp with hp | hp
      · exact Or.inl hp
      · exact Or.inr fun i _ _ => hp _) hk
  exact ⟨_, w1, h1⟩

/-- Under `Answers` and `PayloadSafe` the loop of `sendPending` returns. -/
theorem Client.sendPendingLoop_returns (srv : Nat → Response PL) (fuel : Nat)
    (ha : Answers srv fuel) :
    ∀ (n : Nat) (s : Bool) (w : World UR UC PL BS), PayloadSafe srv w →
      ∃ b w1, Client.sendPendingLoop srv fuel n s w = Except.ok (b, w1) := by
  intro n
  induction n with
  | zero => intro s w _; exact ⟨_, _, rfl⟩
  | succ n ih =>
    intro s w hp
    rw [Client.sendPendingLoop]
    cases hfirst : w.client._buffer.first with
    | none => exact ⟨_, _, rfl⟩
    | some r =>
      obtain ⟨sent, wr, hr⟩ := Client._send_returns srv fuel
        (Body.record r w.timeClient.getCurrentEpoch w.client._bootID) 0 w ha hp
      have hrec : Client.sendRecord srv fuel r w = Except.ok (sent, wr) := hr
      obtain ⟨_, _, evs, hf, _⟩ := Client._send_ok srv fuel _ _ _ _ _ hr
      have hpr : PayloadSafe srv wr := hp.of_handler hf.handler
      simp only [hrec, bind, Except.bind]
      cases sent with
      | true =>
        simp only [if_true]
        exact ih s _ (hpr.of_handler rfl)
      | false =>
        simp only [if_false, Bool.false_eq_true]
        exact ih false wr hpr

/-- Under `Answers` and `PayloadSafe`, and with `_onMeasure` set, `loop`
returns. -/
theorem Client.loop_returns [Inhabited UR] (inp : TickInput UR PL) (fuel : Nat)
    (w : World UR UC PL BS) (ho : w.client._onMeasure = true)
    (ha : Answers inp.srv fuel) (hp : PayloadSafe inp.srv w) :
    ∃ w2, Client.loop inp fuel w = Except.ok w2 := by
  obtain ⟨w1, h1⟩ := Client.measureStep_returns inp w ho
  obtain ⟨_, _, _, _, hc⟩ := Client.measureStep_ok inp w w1 h1
  have hp1 : PayloadSafe inp.srv w1 := by
    refine hp.of_handler ?_
    rw [hc]
    split <;> [split <;> [split <;> rfl; rfl]; rfl]
  unfold Client.loop
  simp only [h1, bind, Except.bind]
  unfold Client.sendStep
  cases w1.client._buffer.isEmpty with
  | true => exact ⟨_, rfl⟩
  | false =>
    obtain ⟨b, ws, hs⟩ := Client.sendPendingLoop_returns inp.srv fuel ha 1 true w1 hp1
    have hs1 : Client.sendPending inp.srv fuel 1 w1 = Except.ok (b, ws) := hs
    simp only [hs1, if_false, Bool.false_eq_true, bind, Except.bind]
    cases b <;> exact ⟨_, rfl⟩

/-- Attempts that all fail leave the store as it is. -/
theorem Drains.all_failed : ∀ (att : List (Record UR × Bool)) (buf buf1 : List (Record UR)),
    Drains buf att buf1 → (∀ a, a ∈ att → a.2 = false) → buf1 = buf := by
  intro att
  induction att with
  | nil => intro buf buf1 h _; exact h
  | cons a att ih =>
    intro buf buf1 h hall
    obtain ⟨_, ht⟩ := h
    have ha : a.2 = false := hall a (List.mem_cons_self _ _)
    simp only [ha, if_false, Bool.false_eq_true] at ht
    exact ih buf buf1 ht (fun x hx => hall x (List.mem_cons_of_mem _ hx))

/-- The attempt after a failed one is made on the same record. -/
theorem Drains.retry : ∀ (att : List (Record UR × Bool)) (buf buf1 : List (Record UR))
    (i : Nat) (r : Record UR) (a : Record UR × Bool),
    Drains buf att buf1 → att[i]? = some (r, false) → att[i + 1]? = some a → a.1 = r := by
  intro att
  induction att with
  | nil => intro buf buf1 i r a _ hi; simp at hi
  | cons x att ih =>
    intro buf buf1 i r a h hi hn
    obtain ⟨hh, ht⟩ := h
    cases i with
    | zero =>
      simp only [List.getElem?_cons_zero, Option.some.injEq] at hi
      subst hi
      simp only [if_false, Bool.false_eq_true] at ht hh
      cases att with
      | nil => simp at hn
      | cons y att =>
        simp only [Nat.zero_add, List.getElem?_cons_succ, List.getElem?_cons_zero,
          Option.some.injEq] at hn
        subst hn
        have := ht.1
        rw [hh] at this
        exact (Option.some.inj this).symm
    | succ j =>
      simp only [List.getElem?_cons_succ] at hi hn
      exact ih _ buf1 j r a ht hi hn

/-- A record whose upload failed is the oldest record at the end when every
later attempt failed too. -/
theorem Drains.failed_stays : ∀ (att : List (Record UR × Bool)) (buf buf1 : List (Record UR))
    (i : Nat) (r : Record UR),
    Drains buf att buf1 → att[i]? = some (r, false) →
    (∀ j a, i < j → att[j]? = some a → a.2 = false) → buf1.head? = some r := by
  intro att
  induction att with
  | nil => intro buf buf1 i r _ hi; simp at hi
  | cons x att ih =>
    intro buf buf1 i r h hi hlater
    obtain ⟨hh, ht⟩ := h
    cases i with
    | zero =>
      simp only [List.getElem?_cons_zero, Option.some.injEq] at hi
      subst hi
      simp only [if_false, Bool.false_eq_true] at ht hh
      have hall : ∀ a, a ∈ att → a.2 = false := by
        intro a ha
        obtain ⟨j, hj⟩ := List.getElem?_of_mem ha
        exact hlater (j + 1) a (Nat.succ_pos j) (by simpa using hj)
      rw [Drains.all_failed att buf buf1 ht hall]
      exact hh
    | succ j =>
      simp only [List.getElem?_cons_succ] at hi
      exact ih _ buf1 j r ht hi (fun k a hk hka => hlater (k + 1) a (by omega) (by simpa using hka))

/-- The loop of `sendPending` does not stop before it has made `n` attempts
unless the store is empty. -/
theorem Client.sendPendingLoop_runs (srv : Nat → Response PL) (fuel : Nat) :
    ∀ (n : Nat) (s : Bool) (w : World UR UC PL BS) (b : Bool) (w1 : World UR UC PL BS),
      Client.sendPendingLoop srv fuel n s w = Except.ok (b, w1) →
      ∀ evs, w1.trace = w.trace ++ evs →
        (attempts srv evs).length = n ∨ w1.client._buffer.data = [] := by
  intro n
  induction n with
  | zero =>
    intro s w b w1 h evs he
    simp only [Client.sendPendingLoop, pure, Except.pure, Except.ok.injEq, Prod.mk.injEq] at h
    obtain ⟨_, hw⟩ := h
    subst hw
    have : evs = [] := by simpa using he
    subst this
    left; rfl
  | succ n ih =>
    intro s w b w1 h evs he
    rw [Client.sendPendingLoop] at h
    cases hfirst : w.client._buffer.first with
    | none =>
      simp only [hfirst, pure, Except.pure, Except.ok.injEq, Prod.mk.injEq] at h
      obtain ⟨_, hw⟩ := h
      subst hw
      right
      have : w.client._buffer.data.head? = none := hfirst
      simpa using this
    | some r =>
      simp only [hfirst] at h
      obtain ⟨x, hx, h⟩ := Except.bind_eq_ok h
      obtain ⟨sent, wr⟩ := x
      obtain ⟨_, e1, hf1, ha1, _, _⟩ := Client.sendRecord_ok srv fuel r w sent wr hx
      have step : ∀ (s1 : Bool) (wn : World UR UC PL BS), wn.trace = wr.trace →
          Client.sendPendingLoop srv fuel n s1 wn = Except.ok (b, w1) →
          (attempts srv evs).length = n + 1 ∨ w1.client._buffer.data = [] := by
        intro s1 wn htr hloop
        obtain ⟨e2, hf2, _⟩ := Client.sendPendingLoop_ok srv fuel n s1 wn b w1 hloop
        have hev : evs = e1 ++ e2 := by
          have h1 : w1.trace = w.trace ++ (e1 ++ e2) := by
            rw [hf2.trace, htr, hf1.trace, List.append_assoc]
          rw [he] at h1
          exact List.append_cancel_left h1
        rcases ih s1 wn b w1 hloop e2 hf2.trace with hl | hl
        · left
          rw [hev, attempts_append, ha1]
          simp [hl]
        · right; exact hl
      cases hs : sent with
      | true =>
        simp only [hs, if_true] at h
        exact step s { wr with client := { wr.client with _buffer := wr.client._buffer.shift } }
          rfl h
      | false =>
        simp only [hs, if_false, Bool.false_eq_true] at h
        exact step _ _ rfl h

end ClientLemmas

/-! ## Claims on `Client` -/

section ClientClaims

variable {UR UC PL : Type} {BS : Nat}

/-- C3. For every store content, every `n` and every sequence of responses,
a returning call `sendPending(n)` made at most `n` upload attempts, each on
the record that was the oldest at that moment; an attempt answered with
status 200 removed that record and any other attempt removed nothing. So the
store before the call is the records whose upload was answered with 200, in
order, followed by the store after the call, and the number of records
removed is the number of attempts answered with 200. Every call of
`sendRecord` is one such attempt, and it returns true exactly when its
request was answered with 200. The call returns whenever the responses end
every chain of device-info uploads within the fuel and no empty payload
handler is invoked. -/
theorem C3_sendPending_removes_only_uploaded (srv : Nat → Response PL) (fuel n : Nat)
    (w : World UR UC PL BS) :
    (∀ b w1, Client.sendPending srv fuel n w = Except.ok (b, w1) →
      ∃ evs, w1.trace = w.trace ++ evs ∧
        Drains w.client._buffer.data (attempts srv evs) w1.client._buffer.data ∧
        w.client._buffer.data =
          (((attempts srv evs).filter fun a => a.2).map fun a => a.1) ++ w1.client._buffer.data ∧
        w.client._buffer.data.length =
          ((attempts srv evs).countP fun a => a.2) + w1.client._buffer.data.length ∧
        (attempts srv evs).length ≤ n) ∧
    (∀ (r : Record UR) (w0 w2 : World UR UC PL BS) (b0 : Bool),
      Client.sendRecord srv fuel r w0 = Except.ok (b0, w2) →
      b0 = decide ((srv w0.posts).httpCode = 200) ∧
      ∃ evs0, w2.trace = w0.trace ++ evs0 ∧ attempts srv evs0 = [(r, b0)]) ∧
    (Answers srv fuel → PayloadSafe srv w →
      ∃ b w1, Client.sendPending srv fuel n w = Except.ok (b, w1)) := by
  refine ⟨?_, ?_, ?_⟩
  · intro b w1 h
    obtain ⟨evs, hf, hd, _, hl, _⟩ := Client.sendPendingLoop_ok srv fuel n true w b w1 h
    have hs := Drains.split _ _ _ hd
    refine ⟨evs, hf.trace, hd, hs, ?_, hl⟩
    have := congrArg List.length hs
    simpa [List.countP_eq_length_filter] using this
  · intro r w0 w2 b0 h0
    obtain ⟨hb, evs0, hf, ha, _, _⟩ := Client.sendRecord_ok srv fuel r w0 b0 w2 h0
    exact ⟨hb, evs0, hf.trace, ha⟩
  · intro ha hp
    exact Client.sendPendingLoop_returns srv fuel ha n true w hp

/-- Witness of C3: the store holds `R 1, R 2, R 3`; of three attempts the first
(on `R 1`) and the third (on `R 2`) are answered with 200, the second (on
`R 2`) with 500; the store is left with `R 3`. -/
theorem C3_sendPending_removes_only_uploaded_witness :
    ∃ b w1, Client.sendPending flakySrv 1 3 (demoWorld [R 1, R 2, R 3]) = Except.ok (b, w1) ∧
      w1.client._buffer.data = [R 3] ∧
      ∃ evs, w1.trace = (demoWorld [R 1, R 2, R 3]).trace ++ evs ∧
        Drains [R 1, R 2, R 3] (attempts flakySrv evs) w1.client._buffer.data :=
  ⟨_, _, rfl, rfl,
    ((C3_sendPending_removes_only_uploaded flakySrv 1 3 (demoWorld [R 1, R 2, R 3])).1 _ _ rfl).imp
      fun _ hx => ⟨hx.1, hx.2.1⟩⟩

/-- C4 (counterexample). With `n = 2`, the store holding `R 1, R 2` and the
first upload answered with status 500, `sendPending` makes a second upload
attempt after the failure (two requests, both carrying `R 1`), removes `R 1`
on that second attempt, and returns false with `R 2` at the head of the
store. -/
theorem C4_sendPending_goes_on_after_failure :
    (Client.sendPending failOnceSrv 1 2 (demoWorld [R 1, R 2])).toOption.map
        (fun x => (x.1, x.2.client._buffer.data, x.2.posts, uploads x.2.trace))
      = some (false, [R 2], 2, [(0, R 1), (1, R 1)]) := by
  rfl

/-- C4 (amended). Whenever an upload attempt inside a returning call
`sendPending(n)` fails (attempt number `i + 1`, on the record `r`):
`sendPending` returns false, and the failed attempt removes nothing. When it
was the `n`-th attempt, no further attempt is made and `r` is still the
oldest record when the call returns. When fewer than `n` attempts had been
made, the draining does not halt: a next attempt is made, and it is made on
the same record `r`; `r` is still the oldest record when the call returns if
every later attempt fails as well. With `n = 1` (the value `loop` passes) and
the upload of the oldest record failing, the call returns false after that
one attempt with the store untouched. The call returns whenever the responses
end every chain of device-info uploads within the fuel and no empty payload
handler is invoked. -/
theorem C4_sendPending_failure_amended (srv : Nat → Response PL) (fuel n : Nat)
    (w : World UR UC PL BS) :
    (∀ b w1, Client.sendPending srv fuel n w = Except.ok (b, w1) →
      ∃ evs, w1.trace = w.trace ++ evs ∧
        Drains w.client._buffer.data (attempts srv evs) w1.client._buffer.data ∧
        (attempts srv evs).length ≤ n ∧
        ∀ i r, (attempts srv evs)[i]? = some (r, false) →
          b = false ∧
          (i + 1 = n →
            (attempts srv evs).length = i + 1 ∧ w1.client._buffer.first = some r) ∧
          (i + 1 < n → ∃ b1, (attempts srv evs)[i + 1]? = some (r, b1)) ∧
          ((∀ j a, i < j → (attempts srv evs)[j]? = some a → a.2 = false) →
            w1.client._buffer.first = some r)) ∧
    (∀ r, w.client._buffer.first = some r → (srv w.posts).httpCode ≠ 200 →
      Client.sendPending srv (fuel + 1) 1 w =
        Except.ok (false, { w with posts := w.posts + 1 }.emit
          (Client.request (Body.record r w.timeClient.getCurrentEpoch w.client._bootID) 0 w)) ∧
      ({ w with posts := w.posts + 1 }.emit
          (Client.request (Body.record r w.timeClient.getCurrentEpoch w.client._bootID) 0 w)
        ).client._buffer = w.client._buffer) ∧
    (Answers srv fuel → PayloadSafe srv w →
      ∃ b w1, Client.sendPending srv fuel n w = Except.ok (b, w1)) := by
  refine ⟨?_, ?_, fun ha hp => Client.sendPendingLoop_returns srv fuel ha n true w hp⟩
  · intro b w1 h
    obtain ⟨evs, hf, hd, hb, hl, _⟩ := Client.sendPendingLoop_ok srv fuel n true w b w1 h
    have hrun := Client.sendPendingLoop_runs srv fuel n true w b w1 h evs hf.trace
    refine ⟨evs, hf.trace, hd, hl, ?_⟩
    intro i r hi
    have hlt : i < (attempts srv evs).length := by
      by_contra hge
      rw [List.getElem?_eq_none (by omega)] at hi
      exact absurd hi (by simp)
    have hstay : (∀ j a, i < j → (attempts srv evs)[j]? = some a → a.2 = false) →
        w1.client._buffer.first = some r :=
      fun hlater => Drains.failed_stays _ _ _ i r hd hi hlater
    refine ⟨?_, ?_, ?_, hstay⟩
    · rw [hb, Bool.true_and, List.all_eq_false]
      exact ⟨(r, false), List.getElem?_mem hi, by simp⟩
    · intro hin
      have hlen : (attempts srv evs).length = i + 1 := by omega
      refine ⟨hlen, hstay ?_⟩
      intro j a hj hja
      rw [List.getElem?_eq_none (by omega)] at hja
      exact absurd hja (by simp)
    · intro hin
      cases hnext : (attempts srv evs)[i + 1]? with
      | some a =>
        have := Drains.retry _ _ _ i r a hd hi hnext
        exact ⟨a.2, by rw [← this]⟩
      | none =>
        exfalso
        have hlen : (attempts srv evs).length ≤ i + 1 := by
          by_contra hgt
          have hsome : (attempts srv evs)[i + 1]? =
              some ((attempts srv evs)[i + 1]) := List.getElem?_eq_getElem (by omega)
          rw [hnext] at hsome
          exact absurd hsome (by simp)
        have hhead : w1.client._buffer.first = some r := by
          refine hstay ?_
          intro j a hj hja
          rw [List.getElem?_eq_none (by omega)] at hja
          exact absurd hja (by simp)
        rcases hrun with hn | hempty
        · omega
        · have : w1.client._buffer.data.head? = some r := hhead
          rw [hempty] at this
          exact absurd this (by simp)
  · intro r hhead hfail
    have hrec : Client.sendRecord srv (fuel + 1) r w =
        Except.ok (false, { w with posts := w.posts + 1 }.emit
          (Client.request (Body.record r w.timeClient.getCurrentEpoch w.client._bootID) 0 w)) := by
      unfold Client.sendRecord
      rw [Client._send_succ]
      simp only [ne_eq, hfail, not_false_eq_true, if_true]
      rfl
    refine ⟨?_, rfl⟩
    unfold Client.sendPending
    rw [Client.sendPendingLoop]
    simp only [hhead, hrec, bind, Except.bind]
    rfl

/-- Witness of C4 (amended): `n = 2`, the store holds `R 1, R 2`, the first
upload of `R 1` is answered with status 500: the call returns false and the
second attempt is made on `R 1` again. -/
theorem C4_sendPending_failure_amended_witness :
    ∃ b w1, Client.sendPending failOnceSrv 1 2 (demoWorld [R 1, R 2]) = Except.ok (b, w1) ∧
      b = false ∧
      ∃ evs, w1.trace = (demoWorld [R 1, R 2]).trace ++ evs ∧
        (attempts failOnceSrv evs)[0]? = some (R 1, false) ∧
        ∃ b1, (attempts failOnceSrv evs)[1]? = some (R 1, b1) :=
  ⟨_, _, rfl, rfl,
    ((C4_sendPending_failure_amended failOnceSrv 1 2 (demoWorld [R 1, R 2])).1 _ _ rfl).imp
      fun evs hx =>
        have h0 : (attempts failOnceSrv evs)[0]? = some (R 1, false) := by
          have he : evs = [Event.post 0 0 1000 0 (Body.record (R 1) 0 0),
              Event.post 1 0 1000 0 (Body.record (R 1) 0 0)] := hx.1.symm
          rw [he]
          rfl
        ⟨hx.1, h0, (hx.2.2.2 0 (R 1) h0).2.2.1 (by decide)⟩⟩

/-- C5. In a store that holds at most `BS` records, the measurement step of
`loop` either leaves the store as it is or appends one record behind the
stored ones, and the store holds at most `BS` records after the step and at
the end of the tick. In a tick in which the measurement succeeds, the ticker
is due and the store holds `BS` records, the measurement step returns, sets
the measure state to `BUFFER_FULL` and leaves the store unchanged, and the
measure state at the end of the tick is `BUFFER_FULL`; the tick ends whenever
the responses end every chain of device-info uploads within the fuel and no
empty payload handler is invoked. -/
theorem C5_loop_never_pushes_into_full_buffer [Inhabited UR] (inp : TickInput UR PL)
    (w : World UR UC PL BS) (hinv : w.client._buffer.data.length ≤ BS) :
    (∀ w1, Client.measureStep inp w = Except.ok w1 →
      w1.client._buffer.data.length ≤ BS ∧
      (w1.client._buffer.data = w.client._buffer.data ∨
        w1.client._buffer.data = w.client._buffer.data ++ [Client.measured inp w])) ∧
    (∀ fuel w2, Client.loop inp fuel w = Except.ok w2 → w2.client._buffer.data.length ≤ BS) ∧
    (w.client._onMeasure = true → inp.meas.2 = true → inp.due = true →
      w.client._buffer.data.length = BS →
      (∃ w1, Client.measureStep inp w = Except.ok w1 ∧
        w1.client._measure_state = MEASURE_STATE.BUFFER_FULL ∧
        w1.client._buffer = w.client._buffer) ∧
      (∀ fuel w2, Client.loop inp fuel w = Except.ok w2 →
        w2.client._measure_state = MEASURE_STATE.BUFFER_FULL) ∧
      ∀ fuel, Answers inp.srv fuel → PayloadSafe inp.srv w →
        ∃ w2, Client.loop inp fuel w = Except.ok w2) := by
  have hstep : ∀ w1, Client.measureStep inp w = Except.ok w1 →
      w1.client._buffer.data.length ≤ BS ∧
      (w1.client._buffer.data = w.client._buffer.data ∨
        w1.client._buffer.data = w.client._buffer.data ++ [Client.measured inp w]) := by
    intro w1 h1
    obtain ⟨_, _, _, _, hc⟩ := Client.measureStep_ok inp w w1 h1
    rw [hc]
    by_cases hm : inp.meas.2 = true
    · by_cases hd : inp.due = true
      · cases hf : w.client._buffer.isFull with
        | true => simp [hm, hd, hf, hinv]
        | false =>
          have hlt : w.client._buffer.data.length ≠ BS := by
            simpa [CircularBuffer.isFull] using hf
          simp only [hm, hd, hf, if_true, if_false, Bool.false_eq_true, List.length_append,
            List.length_singleton, or_true, and_true]
          omega
      · simp [hm, hd, hinv]
    · simp [hm, hinv]
  have hfull : w.client._buffer.data.length = BS → w.client._buffer.isFull = true := by
    intro h
    simp [CircularBuffer.isFull, h]
  refine ⟨hstep, ?_, ?_⟩
  · intro fuel w2 h2
    obtain ⟨w1, evs, h1, _, _, hd, _, _⟩ := Client.loop_ok inp fuel w w2 h2
    have := Drains.length_le _ _ _ hd
    have := (hstep w1 h1).1
    omega
  · intro ho hm hd hlen
    have key : ∀ w1, Client.measureStep inp w = Except.ok w1 →
        w1.client._measure_state = MEASURE_STATE.BUFFER_FULL ∧
        w1.client._buffer = w.client._buffer := by
      intro w1 h1
      obtain ⟨_, _, _, _, hc⟩ := Client.measureStep_ok inp w w1 h1
      rw [hc]
      simp [hm, hd, hfull hlen]
    refine ⟨?_, ?_, ?_⟩
    · obtain ⟨w1, h1⟩ := Client.measureStep_returns inp w ho
      exact ⟨w1, h1, key w1 h1⟩
    · intro fuel w2 h2
      obtain ⟨w1, evs, h1, _, _, _, hs, _⟩ := Client.loop_ok inp fuel w w2 h2
      rw [hs]
      exact (key w1 h1).1
    · intro fuel ha hp
      exact Client.loop_returns inp fuel w ho ha hp

/-- Witness of C5: capacity 3, the store holds `R 1, R 2, R 3`; the next
successful measurement yields `BUFFER_FULL` and the store still holds exactly
`R 1, R 2, R 3` in that order. -/
theorem C5_loop_never_pushes_into_full_buffer_witness :
    (demoWorld [R 1, R 2, R 3]).client._buffer.data.length ≤ 3 ∧
    ∃ w1, Client.measureStep fullTick (demoWorld [R 1, R 2, R 3]) = Except.ok w1 ∧
      w1.client._measure_state = MEASURE_STATE.BUFFER_FULL ∧
      w1.client._buffer = { data := [R 1, R 2, R 3] } :=
  ⟨by decide,
    ((C5_loop_never_pushes_into_full_buffer fullTick (demoWorld [R 1, R 2, R 3])
      (by decide)).2.2 rfl rfl rfl rfl).1⟩

/-- C6. When the store holds `r1` followed by `rest` and the upload of `r1`
is answered with status 200 and a body whose only key is `acqPeriod = p`,
`sendPending(1)` returns true, the store becomes exactly `rest` and the
acquisition period is `p`, whatever it was before. When the same response
is handled a second time (as the answer to any further request), the request
carries `p` as `SNO-ACQ-PERIOD`, and the period is still `p`: nothing but the
request count and the trace changes. -/
theorem C6_acqPeriod_applied_and_idempotent (srv : Nat → Response PL) (fuel : Nat)
    (w : World UR UC PL BS) (r1 : Record UR) (rest : List (Record UR)) (p : Nat)
    (hbuf : w.client._buffer.data = r1 :: rest)
    (hresp : srv w.posts = { httpCode := 200, acqPeriod := some p }) :
    Client.sendPending srv (fuel + 1) 1 w = Except.ok (true, Client.afterAcqPeriod w r1 rest p) ∧
    (Client.afterAcqPeriod w r1 rest p).client._buffer.data = rest ∧
    (Client.afterAcqPeriod w r1 rest p).client._acqTicker.getTimeout = p ∧
    ∀ (body : Body UR) (method : Int), srv (w.posts + 1) = { httpCode := 200, acqPeriod := some p } →
      Client._send srv (fuel + 1) body method (Client.afterAcqPeriod w r1 rest p) =
        Except.ok (true, { Client.afterAcqPeriod w r1 rest p with
          posts := w.posts + 2
          trace := (Client.afterAcqPeriod w r1 rest p).trace ++
            [Event.post (w.posts + 1) method p w.client.userConfig body] }) := by
  have hfirst : w.client._buffer.first = some r1 := by
    simp [CircularBuffer.first, hbuf]
  refine ⟨?_, rfl, rfl, ?_⟩
  · unfold Client.sendPending
    rw [Client.sendPendingLoop]
    simp only [hfirst]
    unfold Client.sendRecord
    rw [Client._send_succ]
    simp only [hresp, ne_eq, not_true_eq_false, if_false, Bool.false_eq_true]
    simp [Client.forwardPayload, Client.applyAcqPeriod, Client.sendPendingLoop, bind, Except.bind,
      pure, Except.pure, Client.afterAcqPeriod, World.emit, CircularBuffer.shift, hbuf]
  · intro body method h2
    rw [Client._send_succ]
    have hp : (Client.afterAcqPeriod w r1 rest p).posts = w.posts + 1 := rfl
    simp only [hp, h2, ne_eq, not_true_eq_false, if_false, Bool.false_eq_true]
    simp [Client.forwardPayload, Client.applyAcqPeriod, bind, Except.bind,
      pure, Except.pure, Client.afterAcqPeriod, World.emit, Client.request, periodicMs.reset,
      periodicMs.getTimeout]

/-- Witness of C6: the store holds `R 1, R 2`, the period is 1000 and the
body is `acqPeriod = 2000`: the store becomes `R 2` and the period 2000. -/
theorem C6_acqPeriod_applied_and_idempotent_witness :
    (demoWorld [R 1, R 2]).client._buffer.data = R 1 :: [R 2] ∧
    (Client.sendPending (fun _ => ({ httpCode := 200, acqPeriod := some 2000 } : Response Nat))
        1 1 (demoWorld [R 1, R 2])).toOption.map
      (fun x => (x.1, x.2.client._buffer.data, x.2.client._acqTicker.getTimeout))
      = some (true, [R 2], 2000) :=
  ⟨rfl, by
    rw [(C6_acqPeriod_applied_and_idempotent
      (fun _ => ({ httpCode := 200, acqPeriod := some 2000 } : Response Nat)) 0
      (demoWorld [R 1, R 2]) (R 1) [R 2] 2000 rfl rfl).1]
    rfl⟩

/-- C7 (counterexample). A time client on which no `forceUpdate` was ever
run, asked at the clock reading 5000 ms, returns the number 5, which is
`_timeOffset + 0 + (5000 - 0) / 1000`; `measure` writes that number into the
timestamp of the record. -/
theorem C7_getEpochTime_unsynced_returns_number :
    ({} : HTTPTimeClient).getEpochTime 5000 = 5 ∧
    (Client.measure
        ({ uptime := 5000, epochNow := 5000, meas := (7, true), due := true,
           srv := fun _ => { httpCode := 200 }, updateNow := 5000,
           trips := scenarioTrips } : TickInput Nat Nat)
        (demoWorld [])).toOption.map (fun r => r.1.1.timestamp) = some 5 := by
  constructor
  · decide
  · rfl

/-- C7 (amended). While `_currentEpoc` and `_lastUpdate` still have their
initial value 0 (no `forceUpdate` has succeeded), `getEpochTime` at the clock
reading `now` returns the number `_timeOffset + now / 1000` reduced modulo
`2^32`, and `measure`, whenever its callback is set, returns a record that
carries that number as its timestamp. -/
theorem C7_getEpochTime_unsynced_is_offset_plus_uptime [Inhabited UR]
    (inp : TickInput UR PL) (w : World UR UC PL BS)
    (hepoch : w.timeClient._currentEpoc = 0) (hlast : w.timeClient._lastUpdate = 0)
    (hnow : inp.epochNow < WORD) :
    w.timeClient.getEpochTime inp.epochNow
        = toULong (w.timeClient._timeOffset + ((inp.epochNow / 1000 : Nat) : Int)) ∧
    (w.client._onMeasure = true → ∃ r w1, Client.measure inp w = Except.ok (r, w1)) ∧
    ∀ r w1, Client.measure inp w = Except.ok (r, w1) →
      r.1.timestamp = toULong (w.timeClient._timeOffset + ((inp.epochNow / 1000 : Nat) : Int)) := by
  have hget : w.timeClient.getEpochTime inp.epochNow
      = toULong (w.timeClient._timeOffset + ((inp.epochNow / 1000 : Nat) : Int)) := by
    unfold HTTPTimeClient.getEpochTime
    rw [hepoch, hlast, subULong_of_le (Nat.zero_le _) hnow]
    simp
  refine ⟨hget, ?_, ?_⟩
  · exact Client.measure_returns inp w
  · intro r w1 hm
    rw [(Client.measure_ok inp w w1 r hm).2.1, hget]

/-- Witness of C7 (amended): the fresh client of the scenarios at the clock
reading 5000 ms. -/
theorem C7_getEpochTime_unsynced_is_offset_plus_uptime_witness :
    (demoWorld []).timeClient._currentEpoc = 0 ∧ (demoWorld []).timeClient._lastUpdate = 0 ∧
    (demoWorld []).timeClient.getEpochTime 5000 = 5 :=
  ⟨rfl, rfl,
    (C7_getEpochTime_unsynced_is_offset_plus_uptime
      ({ uptime := 5000, epochNow := 5000, meas := (7, true), due := true,
         srv := fun _ => { httpCode := 200 }, updateNow := 5000,
         trips := scenarioTrips } : TickInput Nat Nat)
      (demoWorld []) rfl rfl (by decide)).1⟩

/-- C8. For a fixed estimate and two clock readings `now1 ≤ now2`, both at or
after `_lastUpdate`, such that the sum `_timeOffset + _currentEpoc +
(now - _lastUpdate) / 1000` lies in the range of `unsigned long` at both
readings: `getEpochTime` (and `millisToEpoch`, which computes the same) is
that sum at both readings, and its value at `now1` is at most its value at
`now2`. -/
theorem C8_getEpochTime_monotone (c : HTTPTimeClient) (now1 now2 : Nat)
    (h12 : now1 ≤ now2) (hlast : c._lastUpdate ≤ now1) (hword : now2 < WORD)
    (hlo : 0 ≤ c._timeOffset + (c._currentEpoc : Int) + (((now1 - c._lastUpdate) / 1000 : Nat) : Int))
    (hhi : c._timeOffset + (c._currentEpoc : Int) + (((now2 - c._lastUpdate) / 1000 : Nat) : Int)
      < 4294967296) :
    c.getEpochTime now1 ≤ c.getEpochTime now2 ∧
    ((c.getEpochTime now1 : Nat) : Int)
      = c._timeOffset + (c._currentEpoc : Int) + (((now1 - c._lastUpdate) / 1000 : Nat) : Int) ∧
    ((c.getEpochTime now2 : Nat) : Int)
      = c._timeOffset + (c._currentEpoc : Int) + (((now2 - c._lastUpdate) / 1000 : Nat) : Int) ∧
    c.millisToEpoch now1 = c.getEpochTime now1 ∧ c.millisToEpoch now2 = c.getEpochTime now2 := by
  unfold HTTPTimeClient.millisToEpoch HTTPTimeClient.getEpochTime
  rw [subULong_of_le hlast (by omega), subULong_of_le (by omega) hword]
  unfold toULong
  refine ⟨?_, ?_, ?_, rfl, rfl⟩ <;> omega

/-- Witness of C8: an estimate taken at 125 ms with epoch 1000 and a negative
offset of ten minutes, read one second and three seconds later. -/
theorem C8_getEpochTime_monotone_witness :
    ({ _timeOffset := -600, _currentEpoc := 1000, _lastUpdate := 125 } : HTTPTimeClient).getEpochTime 1125
      ≤ ({ _timeOffset := -600, _currentEpoc := 1000, _lastUpdate := 125 } : HTTPTimeClient).getEpochTime 3125 :=
  (C8_getEpochTime_monotone { _timeOffset := -600, _currentEpoc := 1000, _lastUpdate := 125 }
    1125 3125 (by decide) (by decide) (by decide) (by decide) (by decide)).1

/-- C9 (counterexample). A server answers a device-info upload with status
200 and `devInfoCheck`, and the next request with status 200 without it: the
call of `sendDeviceInfo` issues two device-info requests. When it answers a
record upload and the following request with `devInfoCheck`, the one call of
`sendRecord` causes two device-info uploads. -/
theorem C9_sendDeviceInfo_recurses :
    (Client.sendDeviceInfo askOnceSrv 2 (demoWorld [])).toOption.map
        (fun x => (x.1, deviceInfoRequests x.2.trace, x.2.posts)) = some (true, 2, 2) ∧
    (Client.sendRecord askTwiceSrv 3 (R 1) (demoWorld [R 1])).toOption.map
        (fun x => (x.1, deviceInfoRequests x.2.trace, x.2.posts)) = some (true, 2, 3) := by
  constructor <;> rfl

/-- C9 (amended). A call of `sendDeviceInfo` issues one device-info request
and one more for every response with status 200 and `devInfoCheck` that it
receives. When the next `k` responses are such and the one after is not,
then, provided a payload handler is set or none of these status-200
responses carries `userServerPayload`, the call returns after exactly `k + 1`
device-info requests (exactly one when `k = 0`), and a call of `sendRecord`
answered by that sequence of responses returns having caused exactly `k`
device-info uploads. When no payload handler is set and one of these
status-200 responses carries `userServerPayload`, neither call returns: it
ends in the call of the empty handler. (The fuel is the nesting depth the
model allows; `k + 1` nested calls are needed.) -/
theorem C9_sendDeviceInfo_one_request_per_devInfoCheck (srv : Nat → Response PL)
    (k fuel : Nat) (w : World UR UC PL BS) (r : Record UR)
    (hchain : ∀ i, i < k →
      (srv (w.posts + i)).httpCode = 200 ∧ (srv (w.posts + i)).devInfoCheck = true)
    (hend : ¬ ((srv (w.posts + k)).httpCode = 200 ∧ (srv (w.posts + k)).devInfoCheck = true))
    (hfuel : k < fuel) :
    ((w.client._onUserServerPayload.isSome = true ∨
        ∀ i, i ≤ k → (srv (w.posts + i)).httpCode = 200 →
          (srv (w.posts + i)).userServerPayload = none) →
      (∃ w1, Client.sendDeviceInfo srv fuel w =
          Except.ok (decide ((srv w.posts).httpCode = 200), w1) ∧
        w1.posts = w.posts + k + 1 ∧
        ∃ evs, w1.trace = w.trace ++ evs ∧ deviceInfoRequests evs = k + 1) ∧
      (∃ w1, Client.sendRecord srv fuel r w =
          Except.ok (decide ((srv w.posts).httpCode = 200), w1) ∧
        w1.posts = w.posts + k + 1 ∧
        ∃ evs, w1.trace = w.trace ++ evs ∧ deviceInfoRequests evs = k)) ∧
    (w.client._onUserServerPayload = none →
      (∃ i, i ≤ k ∧ (srv (w.posts + i)).httpCode = 200 ∧
        (srv (w.posts + i)).userServerPayload ≠ none) →
      Client.sendDeviceInfo srv fuel w = Except.error Fault.badFunctionCall ∧
      Client.sendRecord srv fuel r w = Except.error Fault.badFunctionCall) := by
  obtain ⟨_, hf0, hp0, _, _⟩ := Client.deviceInfoBody_frame w
  constructor
  · intro hpl
    constructor
    · have hn0 : ∃ e0, (Client.deviceInfoBody w).2.trace = w.trace ++ e0 ∧
          deviceInfoRequests e0 = 0 := by
        unfold Client.deviceInfoBody
        cases w.client._fillDeviceInfo
        · exact ⟨[], by simp, rfl⟩
        · exact ⟨[Event.fillDeviceInfo], by simp, rfl⟩
      obtain ⟨e0, ht0, hn0⟩ := hn0
      obtain ⟨w1, h1, hp1, _, e1, ht1, hn1⟩ := Client._send_chain srv k fuel
        (Client.deviceInfoBody w).1 1 (Client.deviceInfoBody w).2
        (by rw [hp0]; exact hchain) (by rw [hp0]; exact hend)
        (by rw [hp0, hf0.handler]; exact hpl) hfuel
      rw [hp0] at h1 hp1
      refine ⟨w1, h1, hp1, e0 ++ Client.request (Client.deviceInfoBody w).1 1
        (Client.deviceInfoBody w).2 :: e1, ?_, ?_⟩
      · rw [ht1, ht0, List.append_assoc]
      · rw [deviceInfoRequests_append, hn0]
        have : deviceInfoRequests (Client.request (Client.deviceInfoBody w).1 1
            (Client.deviceInfoBody w).2 :: e1) = deviceInfoRequests e1 + 1 := by
          simp [deviceInfoRequests, Client.request, Event.isDeviceInfoPost]
        rw [this, hn1]; omega
    · obtain ⟨w1, h1, hp1, _, e1, ht1, hn1⟩ := Client._send_chain srv k fuel
        (Body.record r w.timeClient.getCurrentEpoch w.client._bootID) 0 w hchain hend hpl hfuel
      refine ⟨w1, h1, hp1, _, ht1, ?_⟩
      have : deviceInfoRequests (Client.request
          (Body.record r w.timeClient.getCurrentEpoch w.client._bootID) 0 w :: e1)
          = deviceInfoRequests e1 := by
        simp [deviceInfoRequests, Client.request, Event.isDeviceInfoPost]
      rw [this, hn1]
  · intro hh hbad
    constructor
    · exact Client._send_chain_faults srv k fuel (Client.deviceInfoBody w).1 1
        (Client.deviceInfoBody w).2 (by rw [hp0]; exact hchain) (by rw [hp0]; exact hend)
        (by rw [hf0.handler]; exact hh) (by rw [hp0]; exact hbad) hfuel
    · exact Client._send_chain_faults srv k fuel
        (Body.record r w.timeClient.getCurrentEpoch w.client._bootID) 0 w hchain hend hh hbad hfuel

/-- Witness of C9 (amended): one response with `devInfoCheck`, then one
without: two device-info requests. When the first response carries
`userServerPayload` too and no handler is set, the call does not return. -/
theorem C9_sendDeviceInfo_one_request_per_devInfoCheck_witness :
    (∃ w1, Client.sendDeviceInfo askOnceSrv 2 (demoWorld []) = Except.ok (true, w1) ∧
      w1.posts = 2 ∧
      ∃ evs, w1.trace = (demoWorld []).trace ++ evs ∧ deviceInfoRequests evs = 2) ∧
    Client.sendDeviceInfo askOncePayloadSrv 2 (demoWorld [])
      = Except.error Fault.badFunctionCall :=
  ⟨((C9_sendDeviceInfo_one_request_per_devInfoCheck askOnceSrv 1 2 (demoWorld []) (R 1)
      (by intro i hi; interval_cases i; exact ⟨rfl, rfl⟩)
      (by decide)
      (by decide)).1
      (Or.inr (by intro i hi _; interval_cases i <;> rfl))).1,
   ((C9_sendDeviceInfo_one_request_per_devInfoCheck askOncePayloadSrv 1 2 (demoWorld []) (R 1)
      (by intro i hi; interval_cases i; exact ⟨rfl, rfl⟩)
      (by decide)
      (by decide)).2 rfl ⟨0, by decide, rfl, by decide⟩).1⟩

/-- C10. In a tick in which `_onMeasure` returns `ok = false`, the
measurement step returns (the callback being set), sets the measure state to
`ERROR`, leaves the store and `_lastRecord` unchanged, and invokes
`_beforeMeasure` (when set) and `_onMeasure` and nothing else. At the end of
the tick the measure state is `ERROR`, `_lastRecord` is unchanged and no
event of the tick is an invocation of `_afterMeasure`; the tick ends whenever
the callback is set, the responses end every chain of device-info uploads
within the fuel and no empty payload handler is invoked. -/
theorem C10_failed_measurement [Inhabited UR] (inp : TickInput UR PL)
    (w : World UR UC PL BS) (hfail : inp.meas.2 = false) :
    (w.client._onMeasure = true → ∃ w1, Client.measureStep inp w = Except.ok w1) ∧
    (∀ w1, Client.measureStep inp w = Except.ok w1 →
      w1.client._measure_state = MEASURE_STATE.ERROR ∧
      w1.client._buffer = w.client._buffer ∧
      w1.client._lastRecord = w.client._lastRecord ∧
      w1.trace = w.trace ++ (if w.client._beforeMeasure then [Event.beforeMeasure] else [])
        ++ [Event.onMeasure]) ∧
    (∀ fuel w2, Client.loop inp fuel w = Except.ok w2 →
      w2.client._measure_state = MEASURE_STATE.ERROR ∧
      w2.client._lastRecord = w.client._lastRecord ∧
      ∃ evs, w2.trace = w.trace ++ evs ∧ Event.afterMeasure ∉ evs) ∧
    (∀ fuel, w.client._onMeasure = true → Answers inp.srv fuel → PayloadSafe inp.srv w →
      ∃ w2, Client.loop inp fuel w = Except.ok w2) := by
  have key : ∀ w1, Client.measureStep inp w = Except.ok w1 →
      w1.client._measure_state = MEASURE_STATE.ERROR ∧
      w1.client._buffer = w.client._buffer ∧
      w1.client._lastRecord = w.client._lastRecord ∧
      w1.trace = w.trace ++ (if w.client._beforeMeasure then [Event.beforeMeasure] else [])
        ++ [Event.onMeasure] := by
    intro w1 h1
    obtain ⟨_, _, _, ht, hc⟩ := Client.measureStep_ok inp w w1 h1
    rw [hc, ht]
    simp [hfail]
  refine ⟨Client.measureStep_returns inp w, key, ?_,
    fun fuel ho ha hp => Client.loop_returns inp fuel w ho ha hp⟩
  intro fuel w2 h2
  obtain ⟨w1, evs, h1, ht, hh, _, hs, hl⟩ := Client.loop_ok inp fuel w w2 h2
  obtain ⟨k1, _, k3, k4⟩ := key w1 h1
  refine ⟨by rw [hs, k1], by rw [hl, k3], _, by rw [ht, k4, List.append_assoc, List.append_assoc], ?_⟩
  intro hmem
  rcases List.mem_append.1 hmem with hmem | hmem
  · split at hmem <;> simp at hmem
  · rcases List.mem_append.1 hmem with hmem | hmem
    · simp at hmem
    · have := hh _ hmem
      simp [Event.isMeasureHook] at this

/-- Witness of C10: a failed measurement on a client with `_afterMeasure` set
and the store holding `R 1, R 2`. -/
theorem C10_failed_measurement_witness :
    failedTick.meas.2 = false ∧
    ∃ w1, Client.measureStep failedTick (demoWorld [R 1, R 2]) = Except.ok w1 ∧
      w1.client._measure_state = MEASURE_STATE.ERROR ∧
      w1.client._buffer = { data := [R 1, R 2] } ∧
      w1.trace = [Event.onMeasure] :=
  ⟨rfl, _, rfl,
    ((C10_failed_measurement failedTick (demoWorld [R 1, R 2]) rfl).2.1 _ rfl).1,
    rfl, rfl⟩

/-- C11 (evaluation of the code at the failing input). On nine trips of
100 ms taken after `2^31` ms of uptime, all answered with status 200,
`forceUpdate` returns true and leaves `_currentEpoc = 1008` and
`_lastUpdate = 8050`. The epoch is the one of the last trip, whose interval
runs from 2147491648 to 2147491748 with midpoint 2147491698; `_lastUpdate`
lies in the interval of none of the nine trips. -/
theorem C11_forceUpdate_midpoint_wraps :
    (({} : HTTPTimeClient).forceUpdate lateTrips) =
        { ok := true, client := { _currentEpoc := 1008, _lastUpdate := 8050 }, requests := 9 } ∧
      lateTrips 8 = { t1 := 2147491648, httpCode := 200, s1 := 1008, t2 := 2147491748 } ∧
      (lateTrips 8).t1 + ((lateTrips 8).t2 - (lateTrips 8).t1) / 2 = 2147491698 ∧
      (∀ i, i < 9 → (lateTrips i).t1 ≤ (lateTrips i).t2 ∧ (lateTrips i).t2 < WORD ∧
        ¬ ((lateTrips i).t1 ≤ 8050 ∧ 8050 ≤ (lateTrips i).t2)) := by
  refine ⟨by decide, by decide, by decide, ?_⟩
  intro i hi
  interval_cases i <;> decide

/-- C12 (counterexample). The previous tick left the measure state `ERROR`;
in a tick with a successful measurement and the ticker not due, the
measurement step and the whole tick end with the measure state `SUCCESS`,
not `ERROR`; the store still holds `R 1, R 2`. -/
theorem C12_not_due_tick_changes_state :
    (demoWorldIn MEASURE_STATE.ERROR [R 1, R 2]).client._measure_state = MEASURE_STATE.ERROR ∧
    (Client.measureStep notDueTick (demoWorldIn MEASURE_STATE.ERROR [R 1, R 2])).toOption.map
        (fun x => (x.client._measure_state, x.client._buffer.data))
      = some (MEASURE_STATE.SUCCESS, [R 1, R 2]) ∧
    (Client.loop notDueTick 1 (demoWorldIn MEASURE_STATE.ERROR [R 1, R 2])).toOption.map
        (fun x => (x.client._measure_state, x.client._buffer.data))
      = some (MEASURE_STATE.SUCCESS, [R 1, R 2]) := by
  refine ⟨rfl, rfl, rfl⟩

/-- C12 (amended). In a tick in which the measurement succeeds and the ticker
is not due, the measurement step returns (the callback being set), pushes no
record into the store (the store is unchanged), replaces `_lastRecord` by the
new record and sets the measure state to `SUCCESS`, whatever the state was
before. At the end of the tick the measure state is `SUCCESS` and the store
is what the drain step left of the store before the tick; the tick ends
whenever the responses end every chain of device-info uploads within the fuel
and no empty payload handler is invoked. -/
theorem C12_not_due_tick_yields_success [Inhabited UR] (inp : TickInput UR PL)
    (w : World UR UC PL BS) (hm : inp.meas.2 = true) (hd : inp.due = false) :
    (w.client._onMeasure = true → ∃ w1, Client.measureStep inp w = Except.ok w1) ∧
    (∀ w1, Client.measureStep inp w = Except.ok w1 →
      w1.client._measure_state = MEASURE_STATE.SUCCESS ∧
      w1.client._buffer = w.client._buffer ∧
      w1.client._lastRecord = Client.measured inp w) ∧
    (∀ fuel w2, Client.loop inp fuel w = Except.ok w2 →
      w2.client._measure_state = MEASURE_STATE.SUCCESS ∧
      w2.client._lastRecord = Client.measured inp w ∧
      ∃ evs : List (Event UR UC PL),
        Drains w.client._buffer.data (attempts inp.srv evs) w2.client._buffer.data) ∧
    (∀ fuel, w.client._onMeasure = true → Answers inp.srv fuel → PayloadSafe inp.srv w →
      ∃ w2, Client.loop inp fuel w = Except.ok w2) := by
  have key : ∀ w1, Client.measureStep inp w = Except.ok w1 →
      w1.client._measure_state = MEASURE_STATE.SUCCESS ∧
      w1.client._buffer = w.client._buffer ∧
      w1.client._lastRecord = Client.measured inp w := by
    intro w1 h1
    obtain ⟨_, _, _, _, hc⟩ := Client.measureStep_ok inp w w1 h1
    rw [hc]
    simp [hm, hd]
  refine ⟨Client.measureStep_returns inp w, key, ?_,
    fun fuel ho ha hp => Client.loop_returns inp fuel w ho ha hp⟩
  intro fuel w2 h2
  obtain ⟨w1, evs, h1, _, _, hdr, hs, hl⟩ := Client.loop_ok inp fuel w w2 h2
  obtain ⟨k1, k2, k3⟩ := key w1 h1
  refine ⟨by rw [hs, k1], by rw [hl, k3], evs, ?_⟩
  rw [k2] at hdr
  exact hdr

/-- Witness of C12 (amended): the tick of the counterexample, for each of the
five states the previous tick may have left. -/
theorem C12_not_due_tick_yields_success_witness :
    notDueTick.meas.2 = true ∧ notDueTick.due = false ∧
    ∀ st, ∃ w1, Client.measureStep notDueTick (demoWorldIn st [R 1, R 2]) = Except.ok w1 ∧
      w1.client._measure_state = MEASURE_STATE.SUCCESS ∧
      w1.client._buffer = { data := [R 1, R 2] } :=
  ⟨rfl, rfl, fun st =>
    ((C12_not_due_tick_yields_success notDueTick (demoWorldIn st [R 1, R 2]) rfl rfl).1 rfl).imp
      fun w1 h1 =>
        ⟨h1, ((C12_not_due_tick_yields_success notDueTick (demoWorldIn st [R 1, R 2]) rfl rfl).2.1
          w1 h1).1,
         ((C12_not_due_tick_yields_success notDueTick (demoWorldIn st [R 1, R 2]) rfl rfl).2.1
          w1 h1).2.1⟩⟩

end ClientClaims

end sensino
